import Mathlib

/-!
# Network Pong Battle: entity model, world state, simulation controller, input path

A shallow embedding of `internal/game/{ball,paddle,state,game}.go`, of the
message handling and the client registry of `internal/net/server.go`, of the
state message of `internal/net/protocol.go` and of the send task and the state
mirror of `internal/net/client.go`.

Modelling conventions

* `float64` values are elements of a linearly ordered field `α` (finite
  values, no NaN).  Every definition is generic in `α`, so it runs on `ℚ` and
  is reasoned about on `ℝ`.  Division by zero follows the field convention
  `x / 0 = 0`; Go produces NaN or an infinity there.
* The ball physics is over exact arithmetic.  `Paddle.Move`, whose bounds test
  is decided by the rounding of a sum, takes the rounding of one float64
  operation as its argument `fl` and applies it to every operation of the
  source; `roundFloat64` is that rounding on `ℚ` (nearest value of 53
  significant bits, ties to even, the exponent range left unbounded).  Each
  operation is rounded on its own; a compilation that fuses `y + dy * speed`
  into one rounded operation is not modelled (in the concrete runs below
  the products are exact, so fusing gives the same values).
* `math.Sqrt`, `math.Cos`, `math.Sin` and `math.Pi` are the fields of a `GoMath`
  record passed to the functions that call them.
* `rand.Float64()` reads the next element of an explicit stream of draws
  (`RandSource`); each call advances the stream by one.
* `time.Time` is an `Int` (nanoseconds since the zero time, so the zero
  `time.Time` is `0`) and `time.Duration` is an `Int`.  Every `time.Now()` and
  `time.Since` in the source is a clock reading passed in as an argument.
* The Go `int` counters that the source increments (the two scores and
  `clientCount`) are values of `Int` incremented through `wrapInt64`, the
  wrap-around of 64 bit two's complement.  The other `int` fields (ids and
  settings) are only compared and copied and are plain values of `Int`.
* The mutex of the world state is not modelled: every method of the world
  state is one atomic state transformer.  Each locked section of the server
  is one step of the registry; a section that takes the server mutex again
  while holding it never returns, and no later section runs.
* JSON encoding followed by decoding returns the record that was encoded.
-/

namespace Pong

set_option linter.unusedSectionVars false

variable {α : Type} [LinearOrderedField α]

/-! ## Library functions taken as parameters -/

/-- The functions and constants of Go's `math` package used by the source. -/
structure GoMath (α : Type) where
  Sqrt : α → α
  Cos : α → α
  Sin : α → α
  Pi : α

/-- The global `math/rand` source: the stream of values returned by successive
calls of `rand.Float64()` and the number of calls made so far. -/
structure RandSource (α : Type) where
  next : Nat → α
  pos : Nat

/-- The value of a Go `int` (64 bit, two's complement) after an operation
whose exact result is `x`: `x` reduced into the range from `-2^63` to
`2^63 - 1`. -/
def wrapInt64 (x : Int) : Int :=
  (x + 2 ^ 63) % 2 ^ 64 - 2 ^ 63

/-- The integer nearest to `q`, a tie going to the even one. -/
def roundHalfEven (q : ℚ) : Int :=
  if q - ⌊q⌋ < 1 / 2 then ⌊q⌋
  else if 1 / 2 < q - ⌊q⌋ then ⌊q⌋ + 1
  else if ⌊q⌋ % 2 = 0 then ⌊q⌋
  else ⌊q⌋ + 1

/-- The rounding of one float64 operation with the exact result `x`: the
nearest number with 53 significant bits, a tie going to the even significand
(IEEE 754 round to nearest even).  The exponent range is unbounded: overflow
and subnormal numbers are not modelled. -/
def roundFloat64 (x : ℚ) : ℚ :=
  if x = 0 then 0
  else
    (if x < 0 then -1 else 1) *
      (roundHalfEven (|x| * (2 : ℚ) ^ (52 - Int.log 2 |x|)) : ℚ) *
      (2 : ℚ) ^ (Int.log 2 |x| - 52)

/-- One call of `rand.Float64()`: the value drawn and the advanced source. -/
def RandSource.Float64 (r : RandSource α) : α × RandSource α :=
  (r.next r.pos, { r with pos := r.pos + 1 })

/-! ## paddle.go -/

/-- Paddle of `paddle.go`. -/
structure Paddle (α : Type) where
  PlayerID : Int
  PaddleID : Int
  X : α
  Y : α
  Width : α
  Height : α
  Speed : α

/-- NewPaddle of `paddle.go`. -/
def NewPaddle (playerID paddleID : Int) (x y width height : α) : Paddle α :=
  { PlayerID := playerID, PaddleID := paddleID, X := x, Y := y,
    Width := width, Height := height, Speed := 5 }

/-- Paddle.Move of `paddle.go`: the switch on `PaddleID`, each case with its
bounds test; a `PaddleID` outside 1 to 4 matches no case.  `fl` is the
rounding of one float64 operation: it is applied to each product, each sum
and the conversion `float64(fieldSize)`, as Go evaluates them. -/
def Paddle.Move (fl : α → α) (p : Paddle α) (dx dy : α) (fieldSize : Int) :
    Paddle α :=
  let newX := fl (p.X + fl (dx * p.Speed))
  let newY := fl (p.Y + fl (dy * p.Speed))
  if p.PaddleID = 1 then
    if newY ≥ 0 ∧ fl (newY + p.Height) ≤ fl (fieldSize : α) then { p with Y := newY } else p
  else if p.PaddleID = 2 then
    if newX ≥ 0 ∧ fl (newX + p.Width) ≤ fl (fieldSize : α) then { p with X := newX } else p
  else if p.PaddleID = 3 then
    if newY ≥ 0 ∧ fl (newY + p.Height) ≤ fl (fieldSize : α) then { p with Y := newY } else p
  else if p.PaddleID = 4 then
    if newX ≥ 0 ∧ fl (newX + p.Width) ≤ fl (fieldSize : α) then { p with X := newX } else p
  else
    p

/-- The value `v` clamped to the interval from `lo` to `hi`. -/
def clampTo (lo hi v : α) : α :=
  max lo (min hi v)

/-- The reading of `Move` in the specification, written from its words and
not from the source: the delta is applied on the axis of the slot and the
result is clamped so that the rectangle stays inside the field.  The
arithmetic is float64 arithmetic with the rounding `fl`, like that of
`Paddle.Move`, with which it is compared. -/
def Paddle.MoveClampedSpec (fl : α → α) (p : Paddle α) (dx dy : α)
    (fieldSize : Int) : Paddle α :=
  if p.PaddleID = 1 ∨ p.PaddleID = 3 then
    { p with Y := clampTo 0 (fl (fl (fieldSize : α) - p.Height))
                (fl (p.Y + fl (dy * p.Speed))) }
  else if p.PaddleID = 2 ∨ p.PaddleID = 4 then
    { p with X := clampTo 0 (fl (fl (fieldSize : α) - p.Width))
                (fl (p.X + fl (dx * p.Speed))) }
  else
    p

/-- The paddle rectangle lies inside the square field, the sums being exact. -/
def Paddle.insideField (p : Paddle α) (fieldSize : Int) : Prop :=
  0 ≤ p.X ∧ p.X + p.Width ≤ (fieldSize : α) ∧
  0 ≤ p.Y ∧ p.Y + p.Height ≤ (fieldSize : α)

/-- The paddle rectangle lies inside the square field as float64 arithmetic
with the rounding `fl` evaluates the four comparisons: each sum and the
conversion of the field size are rounded. -/
def Paddle.insideFieldFloat (fl : α → α) (p : Paddle α) (fieldSize : Int) :
    Prop :=
  0 ≤ p.X ∧ fl (p.X + p.Width) ≤ fl (fieldSize : α) ∧
  0 ≤ p.Y ∧ fl (p.Y + p.Height) ≤ fl (fieldSize : α)

/-- Containment in the field is decided by its four comparisons. -/
instance Paddle.decidableInsideField (p : Paddle α) (fieldSize : Int) :
    Decidable (p.insideField fieldSize) := by
  unfold Paddle.insideField
  infer_instance

/-- Containment in float64 arithmetic is decided by its four comparisons. -/
instance Paddle.decidableInsideFieldFloat (fl : α → α) (p : Paddle α)
    (fieldSize : Int) : Decidable (p.insideFieldFloat fl fieldSize) := by
  unfold Paddle.insideFieldFloat
  infer_instance

/-! ## ball.go -/

/-- Ball of `ball.go`. -/
structure Ball (α : Type) where
  X : α
  Y : α
  DX : α
  DY : α
  Radius : α
  Speed : α

/-- NewBall of `ball.go`: one draw fixes the direction. -/
def NewBall (m : GoMath α) (x y speed : α) (r : RandSource α) : Ball α × RandSource α :=
  let angle := r.Float64.1 * 2 * m.Pi
  ({ X := x, Y := y, DX := m.Cos angle * speed, DY := m.Sin angle * speed,
     Radius := 8, Speed := speed }, r.Float64.2)

/-- Ball.Update of `ball.go`: the field size is not used. -/
def Ball.Update (b : Ball α) (_fieldSize : Int) : Ball α :=
  { b with X := b.X + b.DX, Y := b.Y + b.DY }

/-- Ball.CheckWallCollision of `ball.go`: the four edge tests in source order,
each returning at once. -/
def Ball.CheckWallCollision (b : Ball α) (fieldSize : Int) : Ball α × Bool :=
  if b.X - b.Radius ≤ 0 then
    ({ b with X := b.Radius, DX := -b.DX }, true)
  else if b.X + b.Radius ≥ (fieldSize : α) then
    ({ b with X := (fieldSize : α) - b.Radius, DX := -b.DX }, true)
  else if b.Y - b.Radius ≤ 0 then
    ({ b with Y := b.Radius, DY := -b.DY }, true)
  else if b.Y + b.Radius ≥ (fieldSize : α) then
    ({ b with Y := (fieldSize : α) - b.Radius, DY := -b.DY }, true)
  else
    (b, false)

/-- The bounding box test at the head of `CheckPaddleCollision`. -/
def Ball.overlaps (b : Ball α) (paddle : Paddle α) : Bool :=
  decide (b.X + b.Radius ≥ paddle.X ∧
    b.X - b.Radius ≤ paddle.X + paddle.Width ∧
    b.Y + b.Radius ≥ paddle.Y ∧
    b.Y - b.Radius ≤ paddle.Y + paddle.Height)

/-- Ball.CheckPaddleCollision of `ball.go`.  On overlap two draws are consumed,
first for `DX`, then for `DY`. -/
def Ball.CheckPaddleCollision (m : GoMath α) (b : Ball α) (paddle : Paddle α)
    (r : RandSource α) : Ball α × Bool × RandSource α :=
  if b.overlaps paddle then
    let dx1 := if b.X < paddle.X + paddle.Width / 2 then -|b.DX| else |b.DX|
    let dy1 := if b.Y < paddle.Y + paddle.Height / 2 then -|b.DY| else |b.DY|
    let dx2 := dx1 + (r.Float64.1 - 0.5) * 0.5
    let dy2 := dy1 + (r.Float64.2.Float64.1 - 0.5) * 0.5
    let speed := m.Sqrt (dx2 * dx2 + dy2 * dy2)
    ({ b with DX := (dx2 / speed) * b.Speed, DY := (dy2 / speed) * b.Speed },
      true, r.Float64.2.Float64.2)
  else
    (b, false, r)

/-- The velocity inside `CheckPaddleCollision` after the two side tests and the
two perturbations, before the normalisation: the values of `b.DX` and `b.DY`
read by `math.Sqrt(b.DX*b.DX + b.DY*b.DY)`. -/
def Ball.perturbedVelocity (b : Ball α) (paddle : Paddle α) (r : RandSource α) :
    α × α :=
  ((if b.X < paddle.X + paddle.Width / 2 then -|b.DX| else |b.DX|) +
      (r.Float64.1 - 0.5) * 0.5,
   (if b.Y < paddle.Y + paddle.Height / 2 then -|b.DY| else |b.DY|) +
      (r.Float64.2.Float64.1 - 0.5) * 0.5)

/-- The local `speed` of `CheckPaddleCollision`: the divisor of the
normalisation. -/
def Ball.normalisationDivisor (m : GoMath α) (b : Ball α) (paddle : Paddle α)
    (r : RandSource α) : α :=
  m.Sqrt ((b.perturbedVelocity paddle r).1 * (b.perturbedVelocity paddle r).1 +
    (b.perturbedVelocity paddle r).2 * (b.perturbedVelocity paddle r).2)

/-- Ball.Reset of `ball.go`. -/
def Ball.Reset (m : GoMath α) (b : Ball α) (fieldSize : Int) (r : RandSource α) :
    Ball α × RandSource α :=
  let angle := r.Float64.1 * 2 * m.Pi
  ({ b with X := (fieldSize : α) / 2, Y := (fieldSize : α) / 2,
            DX := m.Cos angle * b.Speed, DY := m.Sin angle * b.Speed },
    r.Float64.2)

/-! ## state.go -/

/-- Scores of `state.go`. -/
structure Scores where
  Player1 : Int
  Player2 : Int

/-- GameSettings of `state.go`. -/
structure GameSettings (α : Type) where
  FieldSize : Int
  BallCount : Int
  TargetScore : Int
  TimeLimit : Int
  PaddleSpeed : α
  BallSpeed : α

/-- GameState of `state.go`, without the mutex. -/
structure GameState (α : Type) where
  Balls : List (Ball α)
  Paddles : List (Paddle α)
  Scores : Pong.Scores
  GameOver : Bool
  Winner : Int
  StartTime : Int
  EndTime : Int
  Settings : GameSettings α

/-- Nanoseconds in `time.Second`. -/
def second : Int := 1000000000

/-- Nanoseconds in `time.Minute`. -/
def minute : Int := 60 * second

/-- NewGameState of `state.go`; `now` is the reading of `time.Now()`.  `EndTime`
is not mentioned by the literal, so it is the zero time. -/
def NewGameState (now : Int) : GameState α :=
  { Balls := [], Paddles := [], Scores := { Player1 := 0, Player2 := 0 },
    GameOver := false, Winner := 0, StartTime := now, EndTime := 0,
    Settings := { FieldSize := 600, BallCount := 2, TargetScore := 10,
                  TimeLimit := 5 * minute, PaddleSpeed := 5, BallSpeed := 3 } }

/-- The ball creation loop of `InitializeGame`: `n` calls of `NewBall`. -/
def newBalls (m : GoMath α) (speed : α) :
    Nat → RandSource α → List (Ball α) × RandSource α
  | 0, r => ([], r)
  | n + 1, r =>
    let first := NewBall m 300 300 speed r
    let others := newBalls m speed n first.2
    (first.1 :: others.1, others.2)

/-- GameState.InitializeGame of `state.go`; `now` is the reading of
`time.Now()`.  `make([]Ball, BallCount)` panics when `BallCount` is negative:
the result is `none` then. -/
def GameState.InitializeGame (m : GoMath α) (gs : GameState α) (now : Int)
    (r : RandSource α) : Option (GameState α × RandSource α) :=
  if gs.Settings.BallCount < 0 then
    none
  else
    let balls := newBalls m gs.Settings.BallSpeed gs.Settings.BallCount.toNat r
    some ({ gs with
              Paddles := [NewPaddle 1 1 0 300 20 100,
                          NewPaddle 1 2 300 0 100 20,
                          NewPaddle 2 1 580 300 20 100,
                          NewPaddle 2 2 300 580 100 20],
              Balls := balls.1,
              Scores := { Player1 := 0, Player2 := 0 },
              GameOver := false,
              Winner := 0,
              StartTime := now }, balls.2)

/-- The loop of `UpdatePaddle`: the first paddle with the given ids gets the
position, the loop breaks there. -/
def updatePaddleLoop (playerID paddleID : Int) (x y : α) :
    List (Paddle α) → List (Paddle α)
  | [] => []
  | p :: ps =>
    if p.PlayerID = playerID ∧ p.PaddleID = paddleID then
      { p with X := x, Y := y } :: ps
    else
      p :: updatePaddleLoop playerID paddleID x y ps

/-- GameState.UpdatePaddle of `state.go`. -/
def GameState.UpdatePaddle (gs : GameState α) (playerID paddleID : Int)
    (x y : α) : GameState α :=
  { gs with Paddles := updatePaddleLoop playerID paddleID x y gs.Paddles }

/-- GameState.CheckGameEnd of `state.go`.  `sinceNow` is the clock reading
inside `time.Since(gs.StartTime)`, `stamp` the reading of the `time.Now()`
stored into `EndTime`. -/
def GameState.CheckGameEnd (gs : GameState α) (sinceNow stamp : Int) :
    GameState α × Bool :=
  if gs.Scores.Player1 ≥ gs.Settings.TargetScore then
    ({ gs with GameOver := true, Winner := 1, EndTime := stamp }, true)
  else if gs.Scores.Player2 ≥ gs.Settings.TargetScore then
    ({ gs with GameOver := true, Winner := 2, EndTime := stamp }, true)
  else if sinceNow - gs.StartTime ≥ gs.Settings.TimeLimit then
    ({ gs with
         GameOver := true,
         Winner := if gs.Scores.Player1 > gs.Scores.Player2 then 1
                   else if gs.Scores.Player2 > gs.Scores.Player1 then 2
                   else 0,
         EndTime := stamp }, true)
  else
    (gs, false)

/-- GameState.AddScore of `state.go`.  The increment `++` of a Go `int` wraps
around at 64 bits. -/
def GameState.AddScore (gs : GameState α) (playerID : Int) : GameState α :=
  if playerID = 1 then
    { gs with Scores := { gs.Scores with Player1 := wrapInt64 (gs.Scores.Player1 + 1) } }
  else if playerID = 2 then
    { gs with Scores := { gs.Scores with Player2 := wrapInt64 (gs.Scores.Player2 + 1) } }
  else
    gs

/-! ## game.go -/

/-- Game of `game.go`; `state` is the pointed-to world state. -/
structure Game (α : Type) where
  state : GameState α
  tickRate : Int
  lastTick : Int
  running : Bool

/-- NewGame of `game.go`.  Seeding the random source is the choice of the
`RandSource` stream; `lastTick` is the zero time. -/
def NewGame (now : Int) : Game α :=
  { state := NewGameState now, tickRate := second / 60, lastTick := 0,
    running := false }

/-- Game.Start of `game.go`; `initNow` and `tickNow` are its two clock
readings. -/
def Game.Start (m : GoMath α) (g : Game α) (initNow tickNow : Int)
    (r : RandSource α) : Option (Game α × RandSource α) :=
  match g.state.InitializeGame m initNow r with
  | none => none
  | some res => some ({ g with state := res.1, running := true, lastTick := tickNow }, res.2)

/-- Game.Stop of `game.go`. -/
def Game.Stop (g : Game α) : Game α :=
  { g with running := false }

/-- Game.UpdatePaddle of `game.go`. -/
def Game.UpdatePaddle (g : Game α) (playerID paddleID : Int) (x y : α) :
    Game α :=
  { g with state := g.state.UpdatePaddle playerID paddleID x y }

/-- The body of the loop of `updateBalls` for one ball: the ball after the
iteration, the world state after the `AddScore` call (if any) and the random
source. -/
def updateBallsStep (m : GoMath α) (fieldSize : Int) (gs : GameState α)
    (ball : Ball α) (r : RandSource α) : Ball α × GameState α × RandSource α :=
  let moved := ball.Update fieldSize
  let checked := moved.CheckWallCollision fieldSize
  if checked.2 then
    let scored :=
      if checked.1.X ≤ checked.1.Radius ∨ checked.1.Y ≤ checked.1.Radius then
        gs.AddScore 2
      else
        gs.AddScore 1
    let reset := checked.1.Reset m fieldSize r
    (reset.1, scored, reset.2)
  else
    (checked.1, gs, r)

/-- The loop of `updateBalls` over the balls in index order.  The world state
threaded through carries the scores; its ball slice is written back by
`updateBalls` (neither `AddScore` nor the loop body reads another ball). -/
def updateBallsLoop (m : GoMath α) (fieldSize : Int) :
    List (Ball α) → GameState α → RandSource α →
    List (Ball α) × GameState α × RandSource α
  | [], gs, r => ([], gs, r)
  | ball :: rest, gs, r =>
    let s := updateBallsStep m fieldSize gs ball r
    let t := updateBallsLoop m fieldSize rest s.2.1 s.2.2
    (s.1 :: t.1, t.2.1, t.2.2)

/-- Game.updateBalls of `game.go`.  The field size is read from the snapshot
taken before the loop. -/
def Game.updateBalls (m : GoMath α) (g : Game α) (r : RandSource α) :
    Game α × RandSource α :=
  let res := updateBallsLoop m g.state.Settings.FieldSize g.state.Balls g.state r
  ({ g with state := { res.2.1 with Balls := res.1 } }, res.2.2)

/-- The inner loop of `checkCollisions`: the paddles in slice order, breaking
at the first collision. -/
def checkPaddlesLoop (m : GoMath α) :
    Ball α → List (Paddle α) → RandSource α → Ball α × RandSource α
  | ball, [], r => (ball, r)
  | ball, paddle :: rest, r =>
    let c := ball.CheckPaddleCollision m paddle r
    if c.2.1 then (c.1, c.2.2) else checkPaddlesLoop m c.1 rest c.2.2

/-- The outer loop of `checkCollisions` over the balls in index order. -/
def checkCollisionsLoop (m : GoMath α) (paddles : List (Paddle α)) :
    List (Ball α) → RandSource α → List (Ball α) × RandSource α
  | [], r => ([], r)
  | ball :: rest, r =>
    let s := checkPaddlesLoop m ball paddles r
    let t := checkCollisionsLoop m paddles rest s.2
    (s.1 :: t.1, t.2)

/-- Game.checkCollisions of `game.go`.  The paddles are those of the snapshot
taken before the loop. -/
def Game.checkCollisions (m : GoMath α) (g : Game α) (r : RandSource α) :
    Game α × RandSource α :=
  let res := checkCollisionsLoop m g.state.Paddles g.state.Balls r
  ({ g with state := { g.state with Balls := res.1 } }, res.2)

/-- Game.Update of `game.go`.  `now` is the reading of `time.Now()` at the top,
`sinceNow` and `stamp` are the readings made by `CheckGameEnd`. -/
def Game.Update (m : GoMath α) (g : Game α) (now sinceNow stamp : Int)
    (r : RandSource α) : Game α × RandSource α :=
  if !g.running then
    (g, r)
  else if now - g.lastTick < g.tickRate then
    (g, r)
  else
    let g1 := { g with lastTick := now }
    let g2 := g1.updateBalls m r
    let g3 := g2.1.checkCollisions m g2.2
    let e := g3.1.state.CheckGameEnd sinceNow stamp
    if e.2 then
      ({ g3.1 with state := e.1, running := false }, g3.2)
    else
      ({ g3.1 with state := e.1 }, g3.2)

/-! ## protocol.go and server.go -/

/-- The constant `MessageTypeInput` of `protocol.go`. -/
def MessageTypeInput : String := "input"

/-- InputMessage of `protocol.go`; `MsgType` is its field `Type`. -/
structure InputMessage (α : Type) where
  MsgType : String
  PlayerID : Int
  Paddle1Y : α
  Paddle2X : α

/-- CreateInputMessage of `protocol.go`. -/
def CreateInputMessage (playerID : Int) (paddle1Y paddle2X : α) :
    InputMessage α :=
  { MsgType := MessageTypeInput, PlayerID := playerID, Paddle1Y := paddle1Y,
    Paddle2X := paddle2X }

/-- The fields of Server of `server.go` that are not bound to the network:
the keys of the client map, the game and the three counters and flags. -/
structure Server (α : Type) where
  clients : List Int
  game : Game α
  running : Bool
  gameStarted : Bool
  clientCount : Int

/-- Server.handleMessage of `server.go`.  `decoded` is the outcome of
`DecodeMessage(data, &msg)`: `none` for a decoding error, else the decoded
record. -/
def Server.handleMessage (s : Server α) (playerID : Int)
    (decoded : Option (InputMessage α)) : Server α :=
  match decoded with
  | none => s
  | some msg =>
    if msg.MsgType = MessageTypeInput then
      { s with game := (s.game.UpdatePaddle playerID 1 0 msg.Paddle1Y).UpdatePaddle
                          playerID 2 msg.Paddle2X 0 }
    else
      s

/-- The constant `MessageTypeState` of `protocol.go`. -/
def MessageTypeState : String := "state"

/-- StateMessage of `protocol.go`; `MsgType` is its field `Type`.  It has no
field for the scores. -/
structure StateMessage (α : Type) where
  MsgType : String
  Balls : List (Ball α)
  Paddles : List (Paddle α)
  GameOver : Bool
  Winner : Int
  GameTime : Int
  Remaining : Int

/-- The Unix epoch, in nanoseconds since the zero time. -/
def unixEpoch : Int := 62135596800 * second

/-- CreateStateMessage of `protocol.go`.  `GameTime` is
`StartTime.UnixMilli()`, `Remaining` is `TimeLimit.Milliseconds()`. -/
def CreateStateMessage (state : GameState α) : StateMessage α :=
  { MsgType := MessageTypeState,
    Balls := state.Balls,
    Paddles := state.Paddles,
    GameOver := state.GameOver,
    Winner := state.Winner,
    GameTime := (state.StartTime - unixEpoch) / 1000000,
    Remaining := Int.tdiv state.Settings.TimeLimit 1000000 }

/-! ## client.go -/

/-- The fields of GameClient of `client.go` read or written by the send path:
the player id, the `connected` flag, whether `conn` is non-nil, and the
buffered channel `inputChan` as the list of its pending messages, the oldest
first. -/
structure GameClient (α : Type) where
  playerID : Int
  connected : Bool
  hasConn : Bool
  inputChan : List (InputMessage α)

/-- The capacity of `inputChan` set by `NewClient`. -/
def inputChanCapacity : Nat := 100

/-- GameClient.SendInput of `client.go`: a non-blocking send on `inputChan`;
on a full channel the new message is dropped. -/
def GameClient.SendInput (c : GameClient α) (paddle1Y paddle2X : α) :
    GameClient α :=
  if !c.connected then
    c
  else if c.inputChan.length < inputChanCapacity then
    { c with inputChan := c.inputChan ++ [CreateInputMessage c.playerID paddle1Y paddle2X] }
  else
    c

/-- The ticker case of the loop of GameClient.inputHandler of `client.go`: a
non-blocking receive on `inputChan`, then the write of the encoded message.
The second component is the message written to the connection, if any.
`EncodeMessage` cannot fail on an `InputMessage` without NaN or infinite
fields, so its error branch is left out. -/
def GameClient.inputHandlerTick (c : GameClient α) :
    GameClient α × Option (InputMessage α) :=
  match c.inputChan with
  | [] => (c, none)
  | msg :: rest =>
    if c.connected then
      if c.hasConn then
        ({ c with inputChan := rest }, some msg)
      else
        ({ c with inputChan := rest }, none)
    else
      ({ c with inputChan := rest }, none)

/-- The `MessageTypeState` case of GameClient.processMessage of `client.go`:
the state handed to `onStateUpdate`, built from the decoded message.  The
composite literal names four fields; the others are zero values. -/
def GameClient.processStateMessage (msg : StateMessage α) : GameState α :=
  { Balls := msg.Balls,
    Paddles := msg.Paddles,
    Scores := { Player1 := 0, Player2 := 0 },
    GameOver := msg.GameOver,
    Winner := msg.Winner,
    StartTime := 0,
    EndTime := 0,
    Settings := { FieldSize := 0, BallCount := 0, TargetScore := 0, TimeLimit := 0,
                  PaddleSpeed := 0, BallSpeed := 0 } }

/-! ## server.go: the client registry -/

/-- NewServer of `server.go`; `now` is the clock reading of `NewGameState`. -/
def NewServer (now : Int) : Server α :=
  { clients := [], game := NewGame now, running := false, gameStarted := false,
    clientCount := 0 }

/-- Server.Start of `server.go` when `net.Listen` succeeds. -/
def Server.Start (s : Server α) : Server α :=
  { s with running := true }

/-- The locked section of Server.acceptClients of `server.go` for one accepted
connection: `true` when the connection is handed to a `handleClient`
goroutine, `false` when it is closed because the game is full. -/
def Server.acceptsConnection (s : Server α) : Bool :=
  if s.clients.length ≥ 2 then false else true

/-- The first locked section of Server.handleClient of `server.go`: the server
after the registration, the player id assigned, and `shouldStartGame`.  The
increment `clientCount++` of a Go `int` wraps around at 64 bits. -/
def Server.registerClient (s : Server α) : Server α × Int × Bool :=
  let playerID := wrapInt64 (s.clientCount + 1)
  let clients := s.clients.insert playerID
  ({ s with clientCount := playerID, clients := clients }, playerID,
    decide (clients.length = 2) && !s.gameStarted)

/-- The state writes of Server.stopGame of `server.go`. -/
def Server.stopGame (s : Server α) : Server α :=
  { s with gameStarted := false, game := s.game.Stop }

/-- The last locked section of Server.handleClient of `server.go`, run when
the connection of `playerID` has ended: the server it leaves, and whether the
section returns.  When it calls `stopGame`, the `broadcastMessage` in there
takes `s.mu.RLock()` while this goroutine still holds `s.mu.Lock()`: after
the state writes of `stopGame` the call blocks for ever and the mutex is
never released. -/
def Server.removeClient (s : Server α) (playerID : Int) : Server α × Bool :=
  let s1 := { s with clients := s.clients.erase playerID }
  if s1.clients.length < 2 ∧ s1.gameStarted then (s1.stopGame, false) else (s1, true)

/-- The steps of the client registry, one per locked section. -/
inductive SessionEvent where
  | connectionAccepted
  | clientRegistered
  | clientDisconnected (playerID : Int)

/-- The server together with what its goroutines hold: the number of
`handleClient` goroutines started by `acceptClients` that have not registered
yet, the number of connections closed by `acceptClients`, the player ids of
the join messages sent, the latest first, and whether a goroutine is blocked
for ever while holding the server mutex. -/
structure Session (α : Type) where
  server : Server α
  handlers : Nat
  closed : Nat
  joins : List Int
  deadlocked : Bool

/-- One step of the registry.  `acceptClients` handles a connection while the
server runs; a started `handleClient` goroutine registers and sends its join
message; a registered client disconnects.  Every step takes the server mutex,
so none is made once a goroutine is blocked holding it.  The start of the
game that may follow a registration writes `gameStarted` and `game` only and
is not a step of the registry. -/
def Session.step (s : Session α) (e : SessionEvent) : Session α :=
  if s.deadlocked then
    s
  else
    match e with
    | SessionEvent.connectionAccepted =>
      if s.server.running then
        if s.server.acceptsConnection then
          { s with handlers := s.handlers + 1 }
        else
          { s with closed := s.closed + 1 }
      else
        s
    | SessionEvent.clientRegistered =>
      if s.handlers = 0 then
        s
      else
        { s with server := s.server.registerClient.1,
                 handlers := s.handlers - 1,
                 joins := s.server.registerClient.2.1 :: s.joins }
    | SessionEvent.clientDisconnected playerID =>
      if playerID ∈ s.server.clients then
        { s with server := (s.server.removeClient playerID).1,
                 deadlocked := !(s.server.removeClient playerID).2 }
      else
        s

/-- The registry after a sequence of steps. -/
def Session.run (s : Session α) : List SessionEvent → Session α
  | [] => s
  | e :: es => (s.step e).run es

/-! ## Wall collisions and scoring attribution -/

/-- Which player `updateBalls` credits for a wall hit, outside the slip: a
resolved left or top edge credits player 2, a resolved bottom edge credits
player 1, and a resolved right edge credits player 1 when the ball is not also
at or above the top edge and the field is wider than the ball. -/
theorem updateBallsStep_credit (m : GoMath α) (fieldSize : Int)
    (gs : GameState α) (ball : Ball α) (r : RandSource α)
    (hit : ((ball.Update fieldSize).CheckWallCollision fieldSize).2 = true) :
    let b := ball.Update fieldSize
    let left := b.X - b.Radius ≤ 0
    let right := b.X + b.Radius ≥ (fieldSize : α)
    let top := b.Y - b.Radius ≤ 0
    let gs1 := (updateBallsStep m fieldSize gs ball r).2.1
    (left → gs1 = gs.AddScore 2) ∧
    (¬ left → ¬ right → top → gs1 = gs.AddScore 2) ∧
    (¬ left → ¬ right → ¬ top → gs1 = gs.AddScore 1) ∧
    (¬ left → right → ¬ top → b.Radius < (fieldSize : α) - b.Radius →
      gs1 = gs.AddScore 1) := by
  intro b left right top gs1
  have hb : ball.Update fieldSize = b := rfl
  simp only [gs1, updateBallsStep, hit, if_true]
  simp only [hb] at hit ⊢
  unfold Ball.CheckWallCollision at hit ⊢
  refine ⟨?_, ?_, ?_, ?_⟩
  · intro h1
    have h1' : b.X - b.Radius ≤ 0 := h1
    simp [h1']
  · intro h1 h2 h3
    have h1' : ¬ b.X - b.Radius ≤ 0 := h1
    have h2' : ¬ b.X + b.Radius ≥ (fieldSize : α) := h2
    have h3' : b.Y - b.Radius ≤ 0 := h3
    simp [h1', h2', h3']
  · intro h1 h2 h3
    have h1' : ¬ b.X - b.Radius ≤ 0 := h1
    have h2' : ¬ b.X + b.Radius ≥ (fieldSize : α) := h2
    have h3' : ¬ b.Y - b.Radius ≤ 0 := h3
    rw [if_neg h1', if_neg h2', if_neg h3'] at hit ⊢
    by_cases h4 : b.Y + b.Radius ≥ (fieldSize : α)
    · rw [if_pos h4]
      have hx : ¬ b.X ≤ b.Radius := by intro h; exact h1' (by linarith)
      have hy : ¬ (fieldSize : α) - b.Radius ≤ b.Radius := by
        intro h
        have : b.X + b.Radius < (fieldSize : α) := not_le.mp h2'
        have : b.Radius < b.X := by
          have := not_le.mp h1'
          linarith
        linarith
      simp [hx, hy]
    · rw [if_neg h4] at hit
      exact absurd hit (by simp)
  · intro h1 h2 h3 hw
    have h1' : ¬ b.X - b.Radius ≤ 0 := h1
    have h2' : b.X + b.Radius ≥ (fieldSize : α) := h2
    have h3' : ¬ b.Y - b.Radius ≤ 0 := h3
    rw [if_neg h1', if_pos h2']
    have hx : ¬ (fieldSize : α) - b.Radius ≤ b.Radius := not_le.mpr hw
    have hy : ¬ b.Y ≤ b.Radius := by intro h; exact h3' (by linarith)
    simp [hx, hy]

/-- C1, evaluated where the code departs from it.  On the 600 field a ball of
radius 8 and speed 3 at (591, 10) moving by (9/5, -12/5) ends its move at
(592.8, 7.6), past the right edge and past the top edge.  `CheckWallCollision`
resolves the right edge (the left edge is not breached), and `updateBalls`
then credits player 2, not player 1, because the untouched `Y` is still at most
the radius. -/
theorem updateBalls_right_edge_in_top_corner_credits_player2
    (m : GoMath ℚ) (r : RandSource ℚ) :
    let ball : Ball ℚ := ⟨591, 10, 9 / 5, -12 / 5, 8, 3⟩
    let other : Ball ℚ := ⟨300, 300, 3, 0, 8, 3⟩
    let g : Game ℚ :=
      { state := { (NewGameState 0 : GameState ℚ) with Balls := [ball, other] },
        tickRate := second / 60, lastTick := 0, running := true }
    ¬ ((ball.Update 600).X - (ball.Update 600).Radius ≤ 0) ∧
    (ball.Update 600).X + (ball.Update 600).Radius ≥ 600 ∧
    (ball.Update 600).CheckWallCollision 600 =
      ({ ball.Update 600 with X := 600 - 8, DX := -(9 / 5) }, true) ∧
    (g.updateBalls m r).1.state.Scores.Player1 = 0 ∧
    (g.updateBalls m r).1.state.Scores.Player2 = 1 := by
  intro ball other g
  refine ⟨?_, ?_, ?_, ?_, ?_⟩
  · norm_num [ball, Ball.Update]
  · norm_num [ball, Ball.Update]
  · norm_num [ball, Ball.Update, Ball.CheckWallCollision]
  · norm_num [g, ball, other, Game.updateBalls, updateBallsLoop, updateBallsStep,
      Ball.Update, Ball.CheckWallCollision, GameState.AddScore, NewGameState, wrapInt64]
  · norm_num [g, ball, other, Game.updateBalls, updateBallsLoop, updateBallsStep,
      Ball.Update, Ball.CheckWallCollision, GameState.AddScore, NewGameState, wrapInt64]

/-- C2.  When `CheckWallCollision` returns true, the ball it leaves is the
input ball with exactly the first breached edge (in the order left, right,
top, bottom) resolved: the coordinate of that axis is set to `Radius` (left,
top) or to `fieldSize - Radius` (right, bottom), the velocity component of that
axis is negated, and every other field is the input's. -/
theorem CheckWallCollision_resolves_first_breached_edge (b : Ball α)
    (fieldSize : Int) (h : (b.CheckWallCollision fieldSize).2 = true) :
    (b.X - b.Radius ≤ 0 ∧
      (b.CheckWallCollision fieldSize).1 = { b with X := b.Radius, DX := -b.DX }) ∨
    (¬ b.X - b.Radius ≤ 0 ∧ b.X + b.Radius ≥ (fieldSize : α) ∧
      (b.CheckWallCollision fieldSize).1 =
        { b with X := (fieldSize : α) - b.Radius, DX := -b.DX }) ∨
    (¬ b.X - b.Radius ≤ 0 ∧ ¬ b.X + b.Radius ≥ (fieldSize : α) ∧
      b.Y - b.Radius ≤ 0 ∧
      (b.CheckWallCollision fieldSize).1 = { b with Y := b.Radius, DY := -b.DY }) ∨
    (¬ b.X - b.Radius ≤ 0 ∧ ¬ b.X + b.Radius ≥ (fieldSize : α) ∧
      ¬ b.Y - b.Radius ≤ 0 ∧ b.Y + b.Radius ≥ (fieldSize : α) ∧
      (b.CheckWallCollision fieldSize).1 =
        { b with Y := (fieldSize : α) - b.Radius, DY := -b.DY }) := by
  unfold Ball.CheckWallCollision at h ⊢
  by_cases h1 : b.X - b.Radius ≤ 0
  · left; exact ⟨h1, by rw [if_pos h1]⟩
  · by_cases h2 : b.X + b.Radius ≥ (fieldSize : α)
    · right; left; exact ⟨h1, h2, by rw [if_neg h1, if_pos h2]⟩
    · by_cases h3 : b.Y - b.Radius ≤ 0
      · right; right; left
        exact ⟨h1, h2, h3, by rw [if_neg h1, if_neg h2, if_pos h3]⟩
      · by_cases h4 : b.Y + b.Radius ≥ (fieldSize : α)
        · right; right; right
          exact ⟨h1, h2, h3, h4, by rw [if_neg h1, if_neg h2, if_neg h3, if_pos h4]⟩
        · rw [if_neg h1, if_neg h2, if_neg h3, if_neg h4] at h
          exact absurd h (by simp)

/-- C2 at a ball in the top right corner of the 600 field: both the right and
the top edge are breached, the right edge is the one resolved. -/
theorem CheckWallCollision_resolves_first_breached_edge_witness :
    ((⟨595, 5, 3, -1, 8, 3⟩ : Ball ℚ).CheckWallCollision 600).2 = true ∧
    ((⟨595, 5, 3, -1, 8, 3⟩ : Ball ℚ).CheckWallCollision 600).1 =
      ⟨592, 5, -3, -1, 8, 3⟩ := by
  have hit : ((⟨595, 5, 3, -1, 8, 3⟩ : Ball ℚ).CheckWallCollision 600).2 = true := by
    norm_num [Ball.CheckWallCollision]
  refine ⟨hit, ?_⟩
  have h := CheckWallCollision_resolves_first_breached_edge
    (⟨595, 5, 3, -1, 8, 3⟩ : Ball ℚ) 600 hit
  norm_num at h
  rw [h]

/-! ## Paddle collisions -/

/-- Either sign of `|x|` squares to the square of `x`. -/
theorem bounce_sq (x : α) (c : Prop) [Decidable c] :
    (if c then -|x| else |x|) ^ 2 = x ^ 2 := by
  split <;> simp

/-- A velocity of squared magnitude above 1/8 cannot be cancelled by the two
perturbations `(u - 0.5) * 0.5` with `u` in [0, 1). -/
theorem perturbed_sq_pos (dx dy u1 u2 s : α)
    (hs : 1 / 8 < s ^ 2) (hmag : dx ^ 2 + dy ^ 2 = s ^ 2)
    (h1 : 0 ≤ u1 ∧ u1 < 1) (h2 : 0 ≤ u2 ∧ u2 < 1) :
    0 < (dx + (u1 - 0.5) * 0.5) * (dx + (u1 - 0.5) * 0.5) +
        (dy + (u2 - 0.5) * 0.5) * (dy + (u2 - 0.5) * 0.5) := by
  by_contra hcon
  have hx : dx + (u1 - 0.5) * 0.5 = 0 := by
    by_contra hne
    have := mul_self_pos.mpr hne
    have := mul_self_nonneg (dy + (u2 - 0.5) * 0.5)
    exact hcon (by linarith)
  have hy : dy + (u2 - 0.5) * 0.5 = 0 := by
    by_contra hne
    have := mul_self_pos.mpr hne
    have := mul_self_nonneg (dx + (u1 - 0.5) * 0.5)
    exact hcon (by linarith)
  have ex : dx = -((u1 - 0.5) * 0.5) := by linarith
  have ey : dy = -((u2 - 0.5) * 0.5) := by linarith
  rw [ex, ey] at hmag
  norm_num at hmag
  nlinarith [h1.1, h1.2, h2.1, h2.2]

/-- Dividing a non-zero vector by its length and scaling by `s` gives a vector
of squared length `s ^ 2`. -/
theorem renormalised_sq (x y s : ℝ) (h : 0 < x * x + y * y) :
    (x / Real.sqrt (x * x + y * y) * s) ^ 2 +
      (y / Real.sqrt (x * x + y * y) * s) ^ 2 = s ^ 2 := by
  have hp : 0 < Real.sqrt (x * x + y * y) := Real.sqrt_pos.mpr h
  have hsq : Real.sqrt (x * x + y * y) ^ 2 = x * x + y * y := Real.sq_sqrt h.le
  field_simp
  ring

/-- C3 as stated fails.  A ball of speed 1/4 moving by (1/4, 0) overlaps a
paddle whose midpoints are at or before the ball centre, so the velocity stays
(1/4, 0); the draws 0 and 1/2 give the perturbations -0.25 and 0, the perturbed
velocity is (0, 0) and the divisor `speed` is 0.  The model returns the
velocity (0, 0); Go returns NaN for both components.  Either way the squared
magnitude is not `Speed ^ 2`. -/
theorem CheckPaddleCollision_speed_counterexample :
    let b : Ball ℝ := ⟨10, 5, 1 / 4, 0, 1, 1 / 4⟩
    let paddle : Paddle ℝ := ⟨1, 1, 0, 0, 20, 10, 5⟩
    let r : RandSource ℝ := ⟨fun n => if n = 0 then 0 else 1 / 2, 0⟩
    let res := b.CheckPaddleCollision
      (GoMath.mk Real.sqrt Real.cos Real.sin Real.pi) paddle r
    0 < b.Speed ∧ b.DX ^ 2 + b.DY ^ 2 = b.Speed ^ 2 ∧
    (0 ≤ r.next r.pos ∧ r.next r.pos < 1) ∧
    (0 ≤ r.next (r.pos + 1) ∧ r.next (r.pos + 1) < 1) ∧
    res.2.1 = true ∧
    res.1.DX ^ 2 + res.1.DY ^ 2 ≠ b.Speed ^ 2 := by
  intro b paddle r res
  have habs : |(1 / 4 : ℝ)| = 1 / 4 := abs_of_pos (by norm_num)
  refine ⟨by norm_num [b], by norm_num [b], by norm_num [r], by norm_num [r], ?_, ?_⟩
  · norm_num [res, b, paddle, Ball.CheckPaddleCollision, Ball.overlaps]
  · norm_num [res, b, paddle, r, Ball.CheckPaddleCollision, Ball.overlaps,
      RandSource.Float64, habs]

/-- C3, amended.  Over the reals, for a ball with `Speed ^ 2 > 1 / 8` whose
velocity has magnitude `Speed`, a paddle it overlaps and two draws in [0, 1)
(perturbations in [-0.25, 0.25)), the velocity left by `CheckPaddleCollision`
satisfies `DX ^ 2 + DY ^ 2 = Speed ^ 2`. -/
theorem CheckPaddleCollision_renormalises_speed (b : Ball ℝ)
    (paddle : Paddle ℝ) (r : RandSource ℝ)
    (hspeed : 1 / 8 < b.Speed ^ 2)
    (hmag : b.DX ^ 2 + b.DY ^ 2 = b.Speed ^ 2)
    (hu1 : 0 ≤ r.next r.pos ∧ r.next r.pos < 1)
    (hu2 : 0 ≤ r.next (r.pos + 1) ∧ r.next (r.pos + 1) < 1)
    (hhit : (b.CheckPaddleCollision
      (GoMath.mk Real.sqrt Real.cos Real.sin Real.pi) paddle r).2.1 = true) :
    (b.CheckPaddleCollision
      (GoMath.mk Real.sqrt Real.cos Real.sin Real.pi) paddle r).1.DX ^ 2 +
    (b.CheckPaddleCollision
      (GoMath.mk Real.sqrt Real.cos Real.sin Real.pi) paddle r).1.DY ^ 2
      = b.Speed ^ 2 := by
  unfold Ball.CheckPaddleCollision at hhit ⊢
  by_cases ho : b.overlaps paddle = true
  · simp only [ho, if_true, RandSource.Float64]
    apply renormalised_sq
    apply perturbed_sq_pos _ _ _ _ b.Speed hspeed _ hu1 hu2
    rw [bounce_sq, bounce_sq]
    exact hmag
  · simp [ho] at hhit

/-- C3, amended, at the default ball (radius 8, speed 3) moving right into the
left paddle, with both draws 1/2. -/
theorem CheckPaddleCollision_renormalises_speed_witness :
    ((⟨10, 350, 3, 0, 8, 3⟩ : Ball ℝ).CheckPaddleCollision
      (GoMath.mk Real.sqrt Real.cos Real.sin Real.pi)
      ⟨1, 1, 0, 300, 20, 100, 5⟩ ⟨fun _ => 1 / 2, 0⟩).1.DX ^ 2 +
    ((⟨10, 350, 3, 0, 8, 3⟩ : Ball ℝ).CheckPaddleCollision
      (GoMath.mk Real.sqrt Real.cos Real.sin Real.pi)
      ⟨1, 1, 0, 300, 20, 100, 5⟩ ⟨fun _ => 1 / 2, 0⟩).1.DY ^ 2
      = (3 : ℝ) ^ 2 :=
  CheckPaddleCollision_renormalises_speed ⟨10, 350, 3, 0, 8, 3⟩
    ⟨1, 1, 0, 300, 20, 100, 5⟩ ⟨fun _ => 1 / 2, 0⟩
    (by norm_num) (by norm_num) (by norm_num) (by norm_num)
    (by norm_num [Ball.CheckPaddleCollision, Ball.overlaps])

/-! ## Frame lemmas for the tick -/

/-- AddScore writes nothing but the scores. -/
theorem AddScore_frame (gs : GameState α) (playerID : Int) :
    gs.AddScore playerID = { gs with Scores := (gs.AddScore playerID).Scores } := by
  unfold GameState.AddScore
  split_ifs <;> rfl

/-- One iteration of the `updateBalls` loop writes nothing of the world state
but the scores. -/
theorem updateBallsStep_frame (m : GoMath α) (fieldSize : Int) (gs : GameState α)
    (ball : Ball α) (r : RandSource α) :
    (updateBallsStep m fieldSize gs ball r).2.1 =
      { gs with Scores := (updateBallsStep m fieldSize gs ball r).2.1.Scores } := by
  unfold updateBallsStep
  simp only
  split_ifs
  · exact AddScore_frame gs 2
  · exact AddScore_frame gs 1
  · rfl

/-- The `updateBalls` loop writes nothing of the threaded world state but the
scores. -/
theorem updateBallsLoop_frame (m : GoMath α) (fieldSize : Int) (balls : List (Ball α)) :
    ∀ (gs : GameState α) (r : RandSource α),
    (updateBallsLoop m fieldSize balls gs r).2.1 =
      { gs with Scores := (updateBallsLoop m fieldSize balls gs r).2.1.Scores } := by
  induction balls with
  | nil => intro gs r; rfl
  | cons ball rest ih =>
    intro gs r
    simp only [updateBallsLoop]
    rw [ih]
    rw [updateBallsStep_frame]

/-- An executed tick: the world state after `Update` is `CheckGameEnd` applied
to the state left by `updateBalls` and `checkCollisions`, and the controller
keeps running exactly when `CheckGameEnd` returns false. -/
theorem Update_tick (m : GoMath α) (g : Game α) (now sinceNow stamp : Int)
    (r : RandSource α) (hrun : g.running = true)
    (hdue : g.tickRate ≤ now - g.lastTick) :
    (g.Update m now sinceNow stamp r).1.state =
      (({ (g.updateBalls m r).1.state with
          Balls := (checkCollisionsLoop m g.state.Paddles
            (g.updateBalls m r).1.state.Balls (g.updateBalls m r).2).1 } :
          GameState α).CheckGameEnd sinceNow stamp).1 ∧
    (g.Update m now sinceNow stamp r).1.running =
      !(({ (g.updateBalls m r).1.state with
          Balls := (checkCollisionsLoop m g.state.Paddles
            (g.updateBalls m r).1.state.Balls (g.updateBalls m r).2).1 } :
          GameState α).CheckGameEnd sinceNow stamp).2 := by
  have hd : ¬ now - g.lastTick < g.tickRate := not_lt.mpr hdue
  unfold Game.Update
  simp only [hrun, hd, Bool.not_true, if_false, Bool.false_eq_true]
  have hp : (g.updateBalls m r).1.state.Paddles = g.state.Paddles := by
    simp only [Game.updateBalls]
    rw [updateBallsLoop_frame]
  simp only [Game.checkCollisions, Game.updateBalls] at hp ⊢
  rw [hp]
  split_ifs with he
  · simp [he]
  · simp [he]

/-! ## Termination -/

/-- C4.  On an executed tick of a running game (the controller runs and a tick
interval has elapsed): if player 1's score after this tick's `updateBalls` has
reached the target score, `Update` sets `GameOver`, sets `Winner` to 1, stores
the clock reading of this tick's `CheckGameEnd` into `EndTime` and stops the
controller; if both scores are below the target and the time limit has not
elapsed, `GameOver` and `EndTime` keep their values and the controller keeps
running. -/
theorem Update_ends_game_on_threshold_tick (m : GoMath α) (g : Game α)
    (now sinceNow stamp : Int) (r : RandSource α) (hrun : g.running = true)
    (hdue : g.tickRate ≤ now - g.lastTick) :
    let scored := (g.updateBalls m r).1.state.Scores
    let target := g.state.Settings.TargetScore
    let g' := (g.Update m now sinceNow stamp r).1
    (scored.Player1 ≥ target →
      g'.state.GameOver = true ∧ g'.state.Winner = 1 ∧
      g'.state.EndTime = stamp ∧ g'.running = false) ∧
    (scored.Player1 < target → scored.Player2 < target →
      sinceNow - g.state.StartTime < g.state.Settings.TimeLimit →
      g'.state.GameOver = g.state.GameOver ∧
      g'.state.EndTime = g.state.EndTime ∧ g'.running = true) := by
  intro scored target g'
  obtain ⟨hs, hr⟩ := Update_tick m g now sinceNow stamp r hrun hdue
  have hf : (g.updateBalls m r).1.state =
      { g.state with Balls := (g.updateBalls m r).1.state.Balls, Scores := scored } := by
    simp only [scored, Game.updateBalls]
    rw [updateBallsLoop_frame]
  simp only [g']
  rw [hs, hr, hf]
  unfold GameState.CheckGameEnd
  constructor
  · intro h1
    have h1' : scored.Player1 ≥ g.state.Settings.TargetScore := h1
    simp [h1']
  · intro h1 h2 h3
    have h1' : ¬ scored.Player1 ≥ g.state.Settings.TargetScore := not_le.mpr h1
    have h2' : ¬ scored.Player2 ≥ g.state.Settings.TargetScore := not_le.mpr h2
    have h3' : ¬ sinceNow - g.state.StartTime ≥ g.state.Settings.TimeLimit := not_le.mpr h3
    simp [h1', h2', h3']

/-- C4 on the default game with player 1 at 9 points and a ball about to cross
the right edge away from the corners: the tick ends the game for player 1. -/
theorem Update_ends_game_on_threshold_tick_witness :
    let m : GoMath ℝ := GoMath.mk Real.sqrt Real.cos Real.sin Real.pi
    let r : RandSource ℝ := ⟨fun _ => 1 / 2, 0⟩
    let g : Game ℝ :=
      { state := { (NewGameState 0 : GameState ℝ) with
                     Balls := [⟨590, 300, 3, 0, 8, 3⟩],
                     Scores := { Player1 := 9, Player2 := 3 } },
        tickRate := second / 60, lastTick := 0, running := true }
    (g.Update m second second (second + 1) r).1.state.GameOver = true ∧
    (g.Update m second second (second + 1) r).1.state.Winner = 1 ∧
    (g.Update m second second (second + 1) r).1.state.EndTime = second + 1 ∧
    (g.Update m second second (second + 1) r).1.running = false := by
  intro m r g
  have hdue : g.tickRate ≤ second - g.lastTick := by
    show second / 60 ≤ second - 0
    decide
  exact (Update_ends_game_on_threshold_tick m g second second (second + 1) r rfl hdue).1
    (by norm_num [g, Game.updateBalls, updateBallsLoop, updateBallsStep, Ball.Update,
      Ball.CheckWallCollision, GameState.AddScore, NewGameState, wrapInt64])

/-- C5.  `CheckGameEnd` returns true exactly when player 1 or player 2 has
reached the target score or the elapsed time has reached the time limit.  With
player 1 at the target the winner is 1; else with player 2 at the target the
winner is 2; else, on the time limit, the winner is the player with the
strictly higher score and 0 for equal scores.  A true result sets `GameOver`
and stamps `EndTime`; a false result leaves the whole state, so `GameOver`,
`Winner` and `EndTime`, as it was. -/
theorem CheckGameEnd_decision (gs : GameState α) (sinceNow stamp : Int) :
    let res := gs.CheckGameEnd sinceNow stamp
    let p1 := gs.Scores.Player1
    let p2 := gs.Scores.Player2
    let target := gs.Settings.TargetScore
    let timeUp := sinceNow - gs.StartTime ≥ gs.Settings.TimeLimit
    (res.2 = true ↔ (p1 ≥ target ∨ p2 ≥ target ∨ timeUp)) ∧
    (p1 ≥ target → res.1.Winner = 1) ∧
    (¬ p1 ≥ target → p2 ≥ target → res.1.Winner = 2) ∧
    (¬ p1 ≥ target → ¬ p2 ≥ target → timeUp →
      (p1 > p2 → res.1.Winner = 1) ∧ (p2 > p1 → res.1.Winner = 2) ∧
      (p1 = p2 → res.1.Winner = 0)) ∧
    (res.2 = true → res.1.GameOver = true ∧ res.1.EndTime = stamp) ∧
    (res.2 = false → res.1 = gs) := by
  intro res p1 p2 target timeUp
  simp only [res, GameState.CheckGameEnd]
  by_cases h1 : gs.Scores.Player1 ≥ gs.Settings.TargetScore
  · simp [p1, target, h1]
  · by_cases h2 : gs.Scores.Player2 ≥ gs.Settings.TargetScore
    · simp [p1, p2, target, h1, h2]
    · by_cases h3 : sinceNow - gs.StartTime ≥ gs.Settings.TimeLimit
      · simp only [p1, p2, target, timeUp, h1, h2, h3, if_true, if_false]
        simp only [true_or, or_true, iff_true, true_implies, false_implies, not_false_eq_true,
          and_true, true_and, reduceCtorEq]
        refine ⟨?_, ?_, ?_⟩
        · intro h; simp [h]
        · intro h
          have : ¬ gs.Scores.Player1 > gs.Scores.Player2 := by omega
          simp [this, h]
        · intro h; simp [h]
      · simp [p1, p2, target, timeUp, h1, h2, h3]

/-- C6 as stated fails: a second `CheckGameEnd` on a finished game (player 1 at
the target 10, ended at time 100) called at time 200 replaces `EndTime` 100 by
200. -/
theorem CheckGameEnd_not_idempotent_counterexample :
    let gs : GameState ℚ :=
      { (NewGameState 0 : GameState ℚ) with Scores := { Player1 := 10, Player2 := 4 } }
    let over := (gs.CheckGameEnd 100 100).1
    over.GameOver = true ∧ (over.CheckGameEnd 200 200).1.EndTime ≠ over.EndTime := by
  intro gs over
  constructor
  · simp [over, gs, GameState.CheckGameEnd, NewGameState]
  · simp [over, gs, GameState.CheckGameEnd, NewGameState]

/-- C6, amended.  On the state left by a `CheckGameEnd` that returned true,
a later `CheckGameEnd` returns true again and changes nothing but `EndTime`,
which it overwrites with its own clock reading: `GameOver`, `Winner` and the
scores are as they were. -/
theorem CheckGameEnd_again_rewrites_EndTime (gs : GameState α)
    (sinceNow stamp laterNow laterStamp : Int)
    (hover : (gs.CheckGameEnd sinceNow stamp).2 = true)
    (hlater : sinceNow ≤ laterNow) :
    (gs.CheckGameEnd sinceNow stamp).1.CheckGameEnd laterNow laterStamp =
      ({ (gs.CheckGameEnd sinceNow stamp).1 with EndTime := laterStamp }, true) := by
  unfold GameState.CheckGameEnd at hover ⊢
  by_cases h1 : gs.Scores.Player1 ≥ gs.Settings.TargetScore
  · simp [h1]
  · by_cases h2 : gs.Scores.Player2 ≥ gs.Settings.TargetScore
    · simp [h1, h2]
    · by_cases h3 : sinceNow - gs.StartTime ≥ gs.Settings.TimeLimit
      · have h3' : laterNow - gs.StartTime ≥ gs.Settings.TimeLimit := by omega
        simp [h1, h2, h3, h3']
      · simp [h1, h2, h3] at hover

/-- C6, amended, on the finished game of the counterexample. -/
theorem CheckGameEnd_again_rewrites_EndTime_witness :
    let gs : GameState ℚ :=
      { (NewGameState 0 : GameState ℚ) with Scores := { Player1 := 10, Player2 := 4 } }
    (gs.CheckGameEnd 100 100).1.CheckGameEnd 200 200 =
      ({ (gs.CheckGameEnd 100 100).1 with EndTime := 200 }, true) := by
  intro gs
  exact CheckGameEnd_again_rewrites_EndTime gs 100 100 200 200
    (by simp [gs, GameState.CheckGameEnd, NewGameState]) (by decide)

/-- C7, evaluated where the code departs from it.  A game created at time 1000
runs into the five minute time limit and is finished with `EndTime` 7000; the
`InitializeGame` that follows clears `GameOver` and leaves `EndTime` at 7000,
not at the zero time. -/
theorem InitializeGame_after_finished_game_keeps_EndTime (m : GoMath ℚ) (r : RandSource ℚ) :
    let fresh : GameState ℚ := NewGameState 1000
    let finished := (fresh.CheckGameEnd (1000 + 5 * minute) 7000).1
    (finished.GameOver = true ∧ finished.EndTime = 7000) ∧
    (finished.InitializeGame m 8000 r).map (fun res => (res.1.GameOver, res.1.EndTime)) =
      some (false, 7000) := by
  intro fresh finished
  constructor
  · simp [finished, fresh, GameState.CheckGameEnd, NewGameState]
  · simp [finished, fresh, GameState.CheckGameEnd, NewGameState, GameState.InitializeGame]

/-! ## Network input -/

/-- C8, evaluated where the code departs from it.  On the started default game
an input message from player 2 with `paddle1Y` 250 and `paddle2X` 120 puts the
right paddle at X = 0 (it started at X = 580) and the bottom paddle at Y = 0
(it started at Y = 580). -/
theorem handleMessage_moves_player2_paddles_off_their_edges (m : GoMath ℚ) (r : RandSource ℚ) :
    ((NewGame 1000 : Game ℚ).Start m 2000 2001 r).map
      (fun started =>
        (({ clients := [1, 2], game := started.1, running := true, gameStarted := true,
            clientCount := 2 } : Server ℚ).handleMessage 2
          (some (CreateInputMessage 2 250 120))).game.state.Paddles) =
    some [NewPaddle 1 1 0 300 20 100, NewPaddle 1 2 300 0 100 20,
          NewPaddle 2 1 0 250 20 100, NewPaddle 2 2 120 0 100 20] := by
  simp [Game.Start, NewGame, NewGameState, GameState.InitializeGame, Server.handleMessage,
    CreateInputMessage, Game.UpdatePaddle, GameState.UpdatePaddle, updatePaddleLoop, NewPaddle]

/-- UpdatePaddle keeps the number of paddles. -/
theorem updatePaddleLoop_length (playerID paddleID : Int) (x y : α) (ps : List (Paddle α)) :
    (updatePaddleLoop playerID paddleID x y ps).length = ps.length := by
  induction ps with
  | nil => rfl
  | cons p ps ih =>
    simp only [updatePaddleLoop]
    split_ifs
    · rfl
    · simp [ih]

/-- UpdatePaddle leaves every paddle of another player as it is. -/
theorem updatePaddleLoop_other (playerID paddleID : Int) (x y : α) (ps : List (Paddle α)) :
    ∀ (i : Nat) (q : Paddle α), ps[i]? = some q → q.PlayerID ≠ playerID →
      (updatePaddleLoop playerID paddleID x y ps)[i]? = some q := by
  induction ps with
  | nil => intro i q h; simp at h
  | cons p ps ih =>
    intro i q h hq
    simp only [updatePaddleLoop]
    split_ifs with hp
    · cases i with
      | zero =>
        simp only [List.getElem?_cons_zero, Option.some.injEq] at h
        subst h
        exact absurd hp.1 hq
      | succ j => simpa using h
    · cases i with
      | zero => simpa using h
      | succ j =>
        simp only [List.getElem?_cons_succ] at h ⊢
        exact ih j q h hq

/-- C9.  Whatever the decoded message holds, `handleMessage` for the connection
of player `p` keeps the number of paddles, leaves every paddle whose
`PlayerID` differs from `p` in place and unchanged, and leaves the balls, the
scores, `GameOver`, `Winner`, `StartTime`, `EndTime` and the running flag of
the controller unchanged. -/
theorem handleMessage_input_isolation (s : Server α) (p : Int)
    (decoded : Option (InputMessage α)) :
    let s' := s.handleMessage p decoded
    s'.game.state.Paddles.length = s.game.state.Paddles.length ∧
    (∀ (i : Nat) (q : Paddle α), s.game.state.Paddles[i]? = some q → q.PlayerID ≠ p →
      s'.game.state.Paddles[i]? = some q) ∧
    s'.game.state.Balls = s.game.state.Balls ∧
    s'.game.state.Scores = s.game.state.Scores ∧
    s'.game.state.GameOver = s.game.state.GameOver ∧
    s'.game.state.Winner = s.game.state.Winner ∧
    s'.game.state.StartTime = s.game.state.StartTime ∧
    s'.game.state.EndTime = s.game.state.EndTime ∧
    s'.game.running = s.game.running := by
  intro s'
  simp only [s', Server.handleMessage]
  cases decoded with
  | none =>
    simp only [true_and, and_true]
    intro i q h _
    exact h
  | some msg =>
    simp only
    split_ifs with ht
    · simp only [Game.UpdatePaddle, GameState.UpdatePaddle, updatePaddleLoop_length, and_true,
        true_and]
      intro i q h hq
      exact updatePaddleLoop_other _ _ _ _ _ i q (updatePaddleLoop_other _ _ _ _ _ i q h hq) hq
    · simp only [true_and, and_true]
      intro i q h _
      exact h

/-! ## Wall reset followed by the paddle check -/

/-- Without overlap `CheckPaddleCollision` changes nothing and draws nothing. -/
theorem CheckPaddleCollision_miss (m : GoMath α) (b : Ball α) (paddle : Paddle α)
    (r : RandSource α) (h : b.overlaps paddle = false) :
    b.CheckPaddleCollision m paddle r = (b, false, r) := by
  simp [Ball.CheckPaddleCollision, h]

/-- CheckPaddleCollision never writes the position, the radius or the speed, and
keeps the stream of draws. -/
theorem CheckPaddleCollision_position (m : GoMath α) (b : Ball α) (paddle : Paddle α)
    (r : RandSource α) :
    (b.CheckPaddleCollision m paddle r).1.X = b.X ∧
    (b.CheckPaddleCollision m paddle r).1.Y = b.Y ∧
    (b.CheckPaddleCollision m paddle r).1.Radius = b.Radius ∧
    (b.CheckPaddleCollision m paddle r).1.Speed = b.Speed ∧
    (b.CheckPaddleCollision m paddle r).2.2.next = r.next := by
  unfold Ball.CheckPaddleCollision
  split_ifs <;> simp [RandSource.Float64]

/-- The paddle loop never writes the position, the radius or the speed of the
ball, and keeps the stream of draws. -/
theorem checkPaddlesLoop_position (m : GoMath α) (paddles : List (Paddle α)) :
    ∀ (b : Ball α) (r : RandSource α),
    (checkPaddlesLoop m b paddles r).1.X = b.X ∧
    (checkPaddlesLoop m b paddles r).1.Y = b.Y ∧
    (checkPaddlesLoop m b paddles r).1.Radius = b.Radius ∧
    (checkPaddlesLoop m b paddles r).1.Speed = b.Speed ∧
    (checkPaddlesLoop m b paddles r).2.next = r.next := by
  induction paddles with
  | nil => intro b r; simp [checkPaddlesLoop]
  | cons p ps ih =>
    intro b r
    have hc := CheckPaddleCollision_position m b p r
    simp only [checkPaddlesLoop]
    split_ifs
    · exact hc
    · obtain ⟨h1, h2, h3, h4, h5⟩ := ih (b.CheckPaddleCollision m p r).1
        (b.CheckPaddleCollision m p r).2.2
      exact ⟨h1.trans hc.1, h2.trans hc.2.1, h3.trans hc.2.2.1, h4.trans hc.2.2.2.1,
        h5.trans hc.2.2.2.2⟩

/-- A ball that overlaps none of the paddles leaves the paddle loop as it
entered it. -/
theorem checkPaddlesLoop_miss (m : GoMath α) (paddles : List (Paddle α)) (b : Ball α)
    (r : RandSource α) (h : ∀ p ∈ paddles, b.overlaps p = false) :
    checkPaddlesLoop m b paddles r = (b, r) := by
  induction paddles with
  | nil => rfl
  | cons p ps ih =>
    simp only [checkPaddlesLoop]
    rw [CheckPaddleCollision_miss m b p r (h p (List.mem_cons_self p ps))]
    simp only [Bool.false_eq_true, if_false]
    exact ih (fun q hq => h q (List.mem_cons_of_mem p hq))

/-- The ball at index `i` after `checkCollisions` is the paddle loop run on the
ball at index `i` before it, at some position of the stream of draws. -/
theorem checkCollisionsLoop_at (m : GoMath α) (paddles : List (Paddle α))
    (balls : List (Ball α)) :
    ∀ (r : RandSource α) (i : Nat) (b : Ball α), balls[i]? = some b →
    ∃ k : Nat, (checkCollisionsLoop m paddles balls r).1[i]? =
      some (checkPaddlesLoop m b paddles ⟨r.next, k⟩).1 := by
  induction balls with
  | nil => intro r i b h; simp at h
  | cons b0 rest ih =>
    intro r i b h
    simp only [checkCollisionsLoop]
    cases i with
    | zero =>
      simp only [List.getElem?_cons_zero, Option.some.injEq] at h
      subst h
      exact ⟨r.pos, by simp⟩
    | succ j =>
      simp only [List.getElem?_cons_succ] at h ⊢
      obtain ⟨k, hk⟩ := ih (checkPaddlesLoop m b0 paddles r).2 j b h
      rw [(checkPaddlesLoop_position m paddles b0 r).2.2.2.2] at hk
      exact ⟨k, hk⟩

/-- One iteration of the `updateBalls` loop keeps the stream of draws, and
leaves a ball that hit a wall as `Reset` produced it. -/
theorem updateBallsStep_ball (m : GoMath α) (fieldSize : Int) (gs : GameState α)
    (ball : Ball α) (r : RandSource α) :
    (updateBallsStep m fieldSize gs ball r).2.2.next = r.next ∧
    (((ball.Update fieldSize).CheckWallCollision fieldSize).2 = true →
      (updateBallsStep m fieldSize gs ball r).1 =
        (((ball.Update fieldSize).CheckWallCollision fieldSize).1.Reset m fieldSize r).1) := by
  unfold updateBallsStep
  by_cases h : ((ball.Update fieldSize).CheckWallCollision fieldSize).2 = true
  · simp [h, Ball.Reset, RandSource.Float64]
  · simp [h]

/-- After the `updateBalls` loop a ball that hit a wall is the ball produced by
`Reset`, at some position of the stream of draws. -/
theorem updateBallsLoop_at (m : GoMath α) (fieldSize : Int) (balls : List (Ball α)) :
    ∀ (gs : GameState α) (r : RandSource α) (i : Nat) (b : Ball α), balls[i]? = some b →
    ((b.Update fieldSize).CheckWallCollision fieldSize).2 = true →
    ∃ k : Nat, (updateBallsLoop m fieldSize balls gs r).1[i]? =
      some (((b.Update fieldSize).CheckWallCollision fieldSize).1.Reset m fieldSize
        ⟨r.next, k⟩).1 := by
  induction balls with
  | nil => intro gs r i b h; simp at h
  | cons b0 rest ih =>
    intro gs r i b h hit
    simp only [updateBallsLoop]
    cases i with
    | zero =>
      simp only [List.getElem?_cons_zero, Option.some.injEq] at h
      subst h
      exact ⟨r.pos, by simp [(updateBallsStep_ball m fieldSize gs b0 r).2 hit]⟩
    | succ j =>
      simp only [List.getElem?_cons_succ] at h ⊢
      obtain ⟨k, hk⟩ := ih (updateBallsStep m fieldSize gs b0 r).2.1
        (updateBallsStep m fieldSize gs b0 r).2.2 j b h hit
      rw [(updateBallsStep_ball m fieldSize gs b0 r).1] at hk
      exact ⟨k, hk⟩


/-- CheckGameEnd does not write the balls. -/
theorem CheckGameEnd_balls (gs : GameState α) (sinceNow stamp : Int) :
    (gs.CheckGameEnd sinceNow stamp).1.Balls = gs.Balls := by
  unfold GameState.CheckGameEnd
  split_ifs <;> rfl

/-- C10 as stated fails.  On the default field with the left paddle moved to
(290, 250), a ball that crosses the left edge is reset to the centre with the
velocity (-3, 0) (draw 1/2, angle pi); `checkCollisions` of the same tick then
tests it against the paddles, finds the overlap with the moved paddle and
turns the velocity to (3, 0). -/
theorem Update_reset_ball_hits_paddle_counterexample :
    let m : GoMath ℝ := GoMath.mk Real.sqrt Real.cos Real.sin Real.pi
    let r : RandSource ℝ := ⟨fun _ => 1 / 2, 0⟩
    let ball : Ball ℝ := ⟨10, 300, -3, 0, 8, 3⟩
    let g : Game ℝ :=
      { state := { (NewGameState 0 : GameState ℝ) with
                     Balls := [ball],
                     Paddles := [NewPaddle 1 1 290 250 20 100, NewPaddle 1 2 300 0 100 20,
                                 NewPaddle 2 1 580 300 20 100, NewPaddle 2 2 300 580 100 20] },
        tickRate := second / 60, lastTick := 0, running := true }
    ((ball.Update 600).CheckWallCollision 600).2 = true ∧
    (((ball.Update 600).CheckWallCollision 600).1.Reset m 600 r).1 = ⟨300, 300, -3, 0, 8, 3⟩ ∧
    (g.Update m second second second r).1.state.Balls = [⟨300, 300, 3, 0, 8, 3⟩] := by
  intro m r ball g
  have hpi : (1 / 2 : ℝ) * 2 * Real.pi = Real.pi := by ring
  have hsq : Real.sqrt (3 * 3 + 0 * 0) = 3 := by
    rw [show (3 * 3 + 0 * 0 : ℝ) = 3 * 3 by ring]
    exact Real.sqrt_mul_self (by norm_num)
  have hwall : (ball.Update 600).CheckWallCollision 600 = (⟨8, 300, 3, 0, 8, 3⟩, true) := by
    norm_num [ball, Ball.Update, Ball.CheckWallCollision]
  have hreset : ((⟨8, 300, 3, 0, 8, 3⟩ : Ball ℝ).Reset m 600 r).1 =
      ⟨300, 300, -3, 0, 8, 3⟩ := by
    simp only [Ball.Reset, RandSource.Float64, m, r, hpi, Real.cos_pi, Real.sin_pi]
    norm_num
  have hpaddle : (⟨300, 300, -3, 0, 8, 3⟩ : Ball ℝ).CheckPaddleCollision m
      (NewPaddle 1 1 290 250 20 100) ⟨fun _ => 1 / 2, 1⟩ =
      (⟨300, 300, 3, 0, 8, 3⟩, true, ⟨fun _ => 1 / 2, 3⟩) := by
    have ho : (⟨300, 300, -3, 0, 8, 3⟩ : Ball ℝ).overlaps
        (NewPaddle 1 1 290 250 20 100) = true := by
      norm_num [Ball.overlaps, NewPaddle]
    have hx : ¬ ((300 : ℝ) < 290 + 20 / 2) := by norm_num
    have hy : ¬ ((300 : ℝ) < 250 + 100 / 2) := by norm_num
    have ha : |(-3 : ℝ)| = 3 := by rw [abs_neg]; exact abs_of_pos (by norm_num)
    have hp : ((1 / 2 : ℝ) - 0.5) * 0.5 = 0 := by norm_num
    simp only [Ball.CheckPaddleCollision, ho, if_true]
    simp only [NewPaddle, RandSource.Float64, m, hx, hy, if_false, ha, abs_zero, hp, add_zero,
      hsq]
    norm_num
  refine ⟨by rw [hwall], by rw [hwall]; exact hreset, ?_⟩
  have hd : ¬ (second - 0 < second / 60) := by decide
  have hstep : updateBallsStep m 600 g.state ball r =
      (⟨300, 300, -3, 0, 8, 3⟩, g.state.AddScore 2, ⟨fun _ => 1 / 2, 1⟩) := by
    simp only [updateBallsStep, hwall, if_true, hreset]
    norm_num [Ball.Reset, RandSource.Float64, r]
  simp only [Game.Update, g, Bool.not_true, Bool.false_eq_true, if_false, hd, Game.updateBalls,
    NewGameState, updateBallsLoop, Game.checkCollisions, checkCollisionsLoop, checkPaddlesLoop]
  simp only [g, NewGameState] at hstep
  rw [hstep]
  simp only [checkPaddlesLoop, hpaddle, if_true]
  simp [GameState.CheckGameEnd, GameState.AddScore, second, minute, wrapInt64]

/-- When the paddles before `p` do not overlap the ball and `p` does, the paddle
loop returns what `CheckPaddleCollision` makes of the ball at `p`. -/
theorem checkPaddlesLoop_first_hit (m : GoMath α) (pre : List (Paddle α)) (p : Paddle α)
    (post : List (Paddle α)) (b : Ball α) (r : RandSource α)
    (hpre : ∀ q ∈ pre, b.overlaps q = false) (hp : b.overlaps p = true) :
    checkPaddlesLoop m b (pre ++ p :: post) r =
      ((b.CheckPaddleCollision m p r).1, (b.CheckPaddleCollision m p r).2.2) := by
  induction pre with
  | nil =>
    have hhit : (b.CheckPaddleCollision m p r).2.1 = true := by
      simp [Ball.CheckPaddleCollision, hp]
    simp only [List.nil_append, checkPaddlesLoop, hhit, if_true]
  | cons q qs ih =>
    simp only [List.cons_append, checkPaddlesLoop]
    rw [CheckPaddleCollision_miss m b q r (hpre q (List.mem_cons_self q qs))]
    simp only [Bool.false_eq_true, if_false]
    exact ih (fun q' hq' => hpre q' (List.mem_cons_of_mem q hq'))

/-- The `updateBalls` loop keeps the stream of draws. -/
theorem updateBallsLoop_next (m : GoMath α) (fieldSize : Int) (balls : List (Ball α)) :
    ∀ (gs : GameState α) (r : RandSource α),
      (updateBallsLoop m fieldSize balls gs r).2.2.next = r.next := by
  induction balls with
  | nil => intro gs r; rfl
  | cons b0 rest ih =>
    intro gs r
    simp only [updateBallsLoop]
    rw [ih, (updateBallsStep_ball m fieldSize gs b0 r).1]

/-- C10, amended.  On an executed tick, a ball that hit a wall in `updateBalls`
is still passed to the paddle loop of `checkCollisions`.  After the tick it
is at the position given by `Reset` (the field centre).  When the ball at
that position overlaps none of the paddles it is exactly the ball `Reset`
produced, velocity included.  When it overlaps a paddle, it is the ball that
`CheckPaddleCollision` makes of the reset ball at the first paddle, in slice
order, that it overlaps. -/
theorem Update_reset_ball_then_paddle_check (m : GoMath α) (g : Game α)
    (now sinceNow stamp : Int) (r : RandSource α) (hrun : g.running = true)
    (hdue : g.tickRate ≤ now - g.lastTick) (i : Nat) (b : Ball α)
    (hb : g.state.Balls[i]? = some b)
    (hhit : ((b.Update g.state.Settings.FieldSize).CheckWallCollision
      g.state.Settings.FieldSize).2 = true) :
    ∃ (k j : Nat) (b' : Ball α),
      let reset := (((b.Update g.state.Settings.FieldSize).CheckWallCollision
        g.state.Settings.FieldSize).1.Reset m g.state.Settings.FieldSize ⟨r.next, k⟩).1
      (g.Update m now sinceNow stamp r).1.state.Balls[i]? = some b' ∧
      b'.X = reset.X ∧ b'.Y = reset.Y ∧
      ((∀ p ∈ g.state.Paddles, reset.overlaps p = false) → b' = reset) ∧
      (∀ (pre : List (Paddle α)) (p : Paddle α) (post : List (Paddle α)),
        g.state.Paddles = pre ++ p :: post →
        (∀ q ∈ pre, reset.overlaps q = false) → reset.overlaps p = true →
        b' = (reset.CheckPaddleCollision m p ⟨r.next, j⟩).1) := by
  obtain ⟨hs, -⟩ := Update_tick m g now sinceNow stamp r hrun hdue
  obtain ⟨k, hk⟩ := updateBallsLoop_at m g.state.Settings.FieldSize g.state.Balls g.state r i b
    hb hhit
  have hk' : (g.updateBalls m r).1.state.Balls[i]? = some
      (((b.Update g.state.Settings.FieldSize).CheckWallCollision
        g.state.Settings.FieldSize).1.Reset m g.state.Settings.FieldSize ⟨r.next, k⟩).1 := by
    simpa [Game.updateBalls] using hk
  have hnext : (g.updateBalls m r).2.next = r.next := by
    simp only [Game.updateBalls]
    exact updateBallsLoop_next m g.state.Settings.FieldSize g.state.Balls g.state r
  obtain ⟨j, hj⟩ := checkCollisionsLoop_at m g.state.Paddles (g.updateBalls m r).1.state.Balls
    (g.updateBalls m r).2 i _ hk'
  rw [hnext] at hj
  have hfin : (g.Update m now sinceNow stamp r).1.state.Balls[i]? = some
      (checkPaddlesLoop m
        (((b.Update g.state.Settings.FieldSize).CheckWallCollision
          g.state.Settings.FieldSize).1.Reset m g.state.Settings.FieldSize ⟨r.next, k⟩).1
        g.state.Paddles ⟨r.next, j⟩).1 := by
    rw [hs, CheckGameEnd_balls]
    exact hj
  refine ⟨k, j, _, hfin, ?_, ?_, ?_, ?_⟩
  · exact (checkPaddlesLoop_position m _ _ _).1
  · exact (checkPaddlesLoop_position m _ _ _).2.1
  · intro hmiss
    rw [checkPaddlesLoop_miss m _ _ _ hmiss]
  · intro pre p post hsplit hpre hp
    rw [hsplit, checkPaddlesLoop_first_hit m pre p post _ _ hpre hp]

/-- C10, amended, on the default field with the left paddle moved over the
centre and a ball crossing the left edge. -/
theorem Update_reset_ball_then_paddle_check_witness :
    let m : GoMath ℝ := GoMath.mk Real.sqrt Real.cos Real.sin Real.pi
    let r : RandSource ℝ := ⟨fun _ => 1 / 2, 0⟩
    let ball : Ball ℝ := ⟨10, 300, -3, 0, 8, 3⟩
    let g : Game ℝ :=
      { state := { (NewGameState 0 : GameState ℝ) with
                     Balls := [ball],
                     Paddles := [NewPaddle 1 1 290 250 20 100, NewPaddle 1 2 300 0 100 20,
                                 NewPaddle 2 1 580 300 20 100, NewPaddle 2 2 300 580 100 20] },
        tickRate := second / 60, lastTick := 0, running := true }
    ∃ (k j : Nat) (b' : Ball ℝ),
      let reset := (((ball.Update 600).CheckWallCollision 600).1.Reset m 600 ⟨r.next, k⟩).1
      (g.Update m second second second r).1.state.Balls[0]? = some b' ∧
      b'.X = reset.X ∧ b'.Y = reset.Y ∧
      ((∀ p ∈ g.state.Paddles, reset.overlaps p = false) → b' = reset) ∧
      (∀ (pre : List (Paddle ℝ)) (p : Paddle ℝ) (post : List (Paddle ℝ)),
        g.state.Paddles = pre ++ p :: post →
        (∀ q ∈ pre, reset.overlaps q = false) → reset.overlaps p = true →
        b' = (reset.CheckPaddleCollision m p ⟨r.next, j⟩).1) := by
  intro m r ball g
  have hdue : g.tickRate ≤ second - g.lastTick := by
    show second / 60 ≤ second - 0
    decide
  exact Update_reset_ball_then_paddle_check m g second second second r rfl hdue 0 ball rfl
    (by norm_num [g, ball, NewGameState, Ball.Update, Ball.CheckWallCollision])

/-! ## Score accounting -/

/-- C12.  Whatever the rounding of the float64 operations, `Move` leaves `X` as
it is when `PaddleID` is 1 or 3 and leaves `Y` as it is when `PaddleID` is 2
or 4; for every other `PaddleID` it returns the paddle unchanged; `Width`,
`Height`, `Speed`, `PlayerID` and `PaddleID` are never changed. -/
theorem Move_axis_constraint (fl : α → α) (p : Paddle α) (dx dy : α) (fieldSize : Int) :
    ((p.PaddleID = 1 ∨ p.PaddleID = 3) → (p.Move fl dx dy fieldSize).X = p.X) ∧
    ((p.PaddleID = 2 ∨ p.PaddleID = 4) → (p.Move fl dx dy fieldSize).Y = p.Y) ∧
    (p.PaddleID ≠ 1 → p.PaddleID ≠ 2 → p.PaddleID ≠ 3 → p.PaddleID ≠ 4 →
      p.Move fl dx dy fieldSize = p) ∧
    (p.Move fl dx dy fieldSize).Width = p.Width ∧
    (p.Move fl dx dy fieldSize).Height = p.Height ∧
    (p.Move fl dx dy fieldSize).Speed = p.Speed ∧
    (p.Move fl dx dy fieldSize).PlayerID = p.PlayerID ∧
    (p.Move fl dx dy fieldSize).PaddleID = p.PaddleID := by
  unfold Paddle.Move
  refine ⟨?_, ?_, ?_, ?_, ?_, ?_, ?_, ?_⟩
  · rintro (h | h) <;> simp only [h] <;> split_ifs <;> first | rfl | omega
  · rintro (h | h) <;> simp only [h] <;> split_ifs <;> first | rfl | omega
  · intro h1 h2 h3 h4
    simp [h1, h2, h3, h4]
  all_goals (simp only; split_ifs <;> rfl)

/-- The nearest integer once the floor is known. -/
theorem roundHalfEven_eval (q : ℚ) (f : ℤ) (hf : (f : ℚ) ≤ q ∧ q < f + 1) :
    roundHalfEven q =
      if q - f < 1 / 2 then f
      else if 1 / 2 < q - f then f + 1
      else if f % 2 = 0 then f
      else f + 1 := by
  have : ⌊q⌋ = f := Int.floor_eq_iff.mpr hf
  simp only [roundHalfEven, this]

/-- The rounding of a positive number once its binary exponent is known. -/
theorem roundFloat64_eval (x : ℚ) (e : ℤ) (hx : 0 < x)
    (hlo : (2 : ℚ) ^ e ≤ x) (hhi : x < (2 : ℚ) ^ (e + 1)) :
    roundFloat64 x = (roundHalfEven (x * (2 : ℚ) ^ (52 - e)) : ℚ) * (2 : ℚ) ^ (e - 52) := by
  have hlog : Int.log 2 x = e := by
    apply le_antisymm
    · have := (Int.lt_zpow_iff_log_lt (b := 2) (by norm_num) hx (x := e + 1)).mp
        (by exact_mod_cast hhi)
      omega
    · exact (Int.zpow_le_iff_le_log (b := 2) (by norm_num) hx).mp (by exact_mod_cast hlo)
  have hne : x ≠ 0 := ne_of_gt hx
  have hnl : ¬ x < 0 := not_lt.mpr hx.le
  simp only [roundFloat64, hne, if_false, hnl, abs_of_pos hx, hlog, one_mul]

/-- 5 is a float64. -/
theorem round_5 : roundFloat64 5 = 5 := by
  rw [roundFloat64_eval _ 2 (by norm_num) (by norm_num) (by norm_num)]
  rw [roundHalfEven_eval _ (5 * 2 ^ 50) (by norm_num)]
  norm_num

/-- 500 is a float64. -/
theorem round_500 : roundFloat64 500 = 500 := by
  rw [roundFloat64_eval _ 8 (by norm_num) (by norm_num) (by norm_num)]
  rw [roundHalfEven_eval _ (500 * 2 ^ 44) (by norm_num)]
  norm_num

/-- 503 is a float64. -/
theorem round_503 : roundFloat64 503 = 503 := by
  rw [roundFloat64_eval _ 8 (by norm_num) (by norm_num) (by norm_num)]
  rw [roundHalfEven_eval _ (503 * 2 ^ 44) (by norm_num)]
  norm_num

/-- 600 is a float64. -/
theorem round_600 : roundFloat64 600 = 600 := by
  rw [roundFloat64_eval _ 9 (by norm_num) (by norm_num) (by norm_num)]
  rw [roundHalfEven_eval _ (600 * 2 ^ 43) (by norm_num)]
  norm_num

/-- 603 is a float64. -/
theorem round_603 : roundFloat64 603 = 603 := by
  rw [roundFloat64_eval _ 9 (by norm_num) (by norm_num) (by norm_num)]
  rw [roundHalfEven_eval _ (603 * 2 ^ 43) (by norm_num)]
  norm_num

/-- The product `5 * 2^-46` is a float64. -/
theorem round_step : roundFloat64 (5 / 2 ^ 46) = 5 / 2 ^ 46 := by
  rw [roundFloat64_eval _ (-44) (by norm_num) (by norm_num) (by norm_num)]
  rw [roundHalfEven_eval _ (5 * 2 ^ 50) (by norm_num)]
  norm_num

/-- The sum `500 + 5 * 2^-46` lies between the neighbours `500` and
`500 + 2^-44` (the spacing of float64 from 256 to 512 is `2^-44`) and rounds
to the nearer, `500 + 2^-44`. -/
theorem round_500_step : roundFloat64 (500 + 5 / 2 ^ 46) = 500 + 1 / 2 ^ 44 := by
  rw [roundFloat64_eval _ 8 (by norm_num) (by norm_num) (by norm_num)]
  rw [roundHalfEven_eval _ (500 * 2 ^ 44 + 1) (by norm_num)]
  norm_num

/-- The sum `600 + 2^-44` is half way between the neighbours `600` and
`600 + 2^-43` (the spacing of float64 from 512 to 1024 is `2^-43`) and rounds
to the one with the even significand, `600`. -/
theorem round_600_tie : roundFloat64 (600 + 1 / 2 ^ 44) = 600 := by
  rw [roundFloat64_eval _ 9 (by norm_num) (by norm_num) (by norm_num)]
  rw [roundHalfEven_eval _ (600 * 2 ^ 43) (by norm_num)]
  norm_num

/-- C13 as stated, with exact sums, fails.  The left paddle of the default
field at Y = 500, flush with the bottom edge, is moved by `dy` = `2^-46`
(about 1.4e-14) at speed 5.  The target `500 + 5 * 2^-46` rounds to
`500 + 2^-44`; the bounds test adds the height 100 and the sum rounds to
600, so the test passes and `Move` stores Y = `500 + 2^-44`.  The exact sum
`Y + Height` is then above 600: the rectangle is not inside the field. -/
theorem Move_exact_containment_counterexample :
    let p : Paddle ℚ := NewPaddle 1 1 0 500 20 100
    p.insideField 600 ∧ p.insideFieldFloat roundFloat64 600 ∧
    (p.Move roundFloat64 0 (1 / 2 ^ 46) 600).Y = 500 + 1 / 2 ^ 44 ∧
    (600 : ℚ) < (p.Move roundFloat64 0 (1 / 2 ^ 46) 600).Y +
      (p.Move roundFloat64 0 (1 / 2 ^ 46) 600).Height ∧
    ¬ (p.Move roundFloat64 0 (1 / 2 ^ 46) 600).insideField 600 := by
  intro p
  have hmul : (1 / 2 ^ 46 : ℚ) * 5 = 5 / 2 ^ 46 := by norm_num
  have hsum : (500 + 1 / 2 ^ 44 : ℚ) + 100 = 600 + 1 / 2 ^ 44 := by norm_num
  have h520 : roundFloat64 (0 + 20) = 20 := by
    rw [roundFloat64_eval _ 4 (by norm_num) (by norm_num) (by norm_num)]
    rw [roundHalfEven_eval _ (20 * 2 ^ 48) (by norm_num)]
    norm_num
  have h600' : roundFloat64 (500 + 100) = 600 := by
    rw [show (500 + 100 : ℚ) = 600 by norm_num]; exact round_600
  have hY : (p.Move roundFloat64 0 (1 / 2 ^ 46) 600).Y = 500 + 1 / 2 ^ 44 := by
    simp only [p, Paddle.Move, NewPaddle, if_true, hmul, round_step, round_500_step, hsum,
      round_600_tie, Int.cast_ofNat, round_600]
    norm_num
  have hH : (p.Move roundFloat64 0 (1 / 2 ^ 46) 600).Height = 100 := by
    simp only [p, Paddle.Move, NewPaddle, if_true]
    split_ifs <;> rfl
  refine ⟨?_, ?_, hY, ?_, ?_⟩
  · norm_num [p, Paddle.insideField, NewPaddle]
  · simp only [p, Paddle.insideFieldFloat, NewPaddle, Int.cast_ofNat, round_600, h520, h600']
    norm_num
  · rw [hY, hH]; norm_num
  · intro hin
    have := hin.2.2.2
    rw [hY, hH] at this
    norm_num at this

/-- C13, amended.  Whatever the rounding of the float64 operations, a paddle
whose rectangle lies inside the field as float64 arithmetic evaluates the
four comparisons still lies inside the field in that sense after `Move`, for
every `dx`, `dy` and every `PaddleID`. -/
theorem Move_preserves_containment (fl : α → α) (p : Paddle α) (dx dy : α) (fieldSize : Int)
    (h : p.insideFieldFloat fl fieldSize) :
    (p.Move fl dx dy fieldSize).insideFieldFloat fl fieldSize := by
  unfold Paddle.insideFieldFloat at h ⊢
  obtain ⟨h1, h2, h3, h4⟩ := h
  unfold Paddle.Move
  simp only
  split_ifs with a b c d e f g i
  all_goals first
    | exact ⟨h1, h2, h3, h4⟩
    | exact ⟨h1, h2, b.1, b.2⟩
    | exact ⟨d.1, d.2, h3, h4⟩
    | exact ⟨h1, h2, f.1, f.2⟩
    | exact ⟨i.1, i.2, h3, h4⟩

/-- C13, amended, on the paddle and the delta of the counterexample. -/
theorem Move_preserves_containment_witness :
    (NewPaddle 1 1 0 500 20 100 : Paddle ℚ).insideFieldFloat roundFloat64 600 ∧
    ((NewPaddle 1 1 0 500 20 100 : Paddle ℚ).Move roundFloat64 0 (1 / 2 ^ 46)
      600).insideFieldFloat roundFloat64 600 := by
  have h520 : roundFloat64 (0 + 20) = 20 := by
    rw [roundFloat64_eval _ 4 (by norm_num) (by norm_num) (by norm_num)]
    rw [roundHalfEven_eval _ (20 * 2 ^ 48) (by norm_num)]
    norm_num
  have h600' : roundFloat64 (500 + 100) = 600 := by
    rw [show (500 + 100 : ℚ) = 600 by norm_num]; exact round_600
  have h : (NewPaddle 1 1 0 500 20 100 : Paddle ℚ).insideFieldFloat roundFloat64 600 := by
    simp only [Paddle.insideFieldFloat, NewPaddle, Int.cast_ofNat, round_600, h520, h600']
    norm_num
  exact ⟨h, Move_preserves_containment roundFloat64 _ 0 (1 / 2 ^ 46) 600 h⟩

/-- Clamping a value of the interval returns the value. -/
theorem clampTo_of_mem (lo hi v : α) (h1 : lo ≤ v) (h2 : v ≤ hi) : clampTo lo hi v = v := by
  unfold clampTo
  rw [min_eq_right h2, max_eq_right h1]

/-- C14 as stated fails.  The left paddle of the default field at Y = 498 (its
rectangle ends at 598) is moved by `dy` = 1 at speed 5, every operation being
exact in float64: the target 503 fails the bounds test (603 > 600), `Move`
rejects it and leaves Y at 498, while clamping to [0, 500] gives 500, flush
with the bottom edge. -/
theorem Move_does_not_clamp_counterexample :
    let p : Paddle ℚ := NewPaddle 1 1 0 498 20 100
    p.insideField 600 ∧ p.PaddleID = 1 ∧
    (p.Move roundFloat64 0 1 600).Y = 498 ∧
    (p.MoveClampedSpec roundFloat64 0 1 600).Y = 500 := by
  intro p
  have h1 : (1 : ℚ) * 5 = 5 := by norm_num
  have h2 : (498 : ℚ) + 5 = 503 := by norm_num
  have h3 : (503 : ℚ) + 100 = 603 := by norm_num
  have h4 : (600 : ℚ) - 100 = 500 := by norm_num
  have hc : clampTo (0 : ℚ) 500 503 = 500 := by
    unfold clampTo
    rw [min_eq_left (by norm_num), max_eq_right (by norm_num)]
  refine ⟨?_, rfl, ?_, ?_⟩
  · norm_num [p, Paddle.insideField, NewPaddle]
  · simp only [p, Paddle.Move, NewPaddle, if_true, h1, round_5, h2, round_503, h3, round_603,
      Int.cast_ofNat, round_600]
    norm_num
  · simp only [p, Paddle.MoveClampedSpec, NewPaddle, true_or, if_true, h1, round_5, h2,
      round_503, Int.cast_ofNat, round_600, h4, round_500, hc]

/-- C14, amended.  Whatever the rounding of the float64 operations: for
`PaddleID` 1 or 3, `Move` computes the target `Y + dy * Speed` and sets `Y` to
it when its bounds test passes (the target is not negative and the rounded
sum of target and `Height` is at most the field size), and returns the paddle
unchanged when the test fails; when the test passes and the target is also
at most the upper end `fieldSize - Height` of the clamping interval, the
result is that of the clamping reading of the specification.  For
`PaddleID` 2 or 4 the same holds for `X`, `dx` and `Width`. -/
theorem Move_applies_or_rejects (fl : α → α) (p : Paddle α) (dx dy : α) (fieldSize : Int) :
    ((p.PaddleID = 1 ∨ p.PaddleID = 3) →
      ((0 ≤ fl (p.Y + fl (dy * p.Speed)) ∧
          fl (fl (p.Y + fl (dy * p.Speed)) + p.Height) ≤ fl (fieldSize : α)) →
        p.Move fl dx dy fieldSize = { p with Y := fl (p.Y + fl (dy * p.Speed)) } ∧
        (fl (p.Y + fl (dy * p.Speed)) ≤ fl (fl (fieldSize : α) - p.Height) →
          p.Move fl dx dy fieldSize = p.MoveClampedSpec fl dx dy fieldSize)) ∧
      (¬ (0 ≤ fl (p.Y + fl (dy * p.Speed)) ∧
          fl (fl (p.Y + fl (dy * p.Speed)) + p.Height) ≤ fl (fieldSize : α)) →
        p.Move fl dx dy fieldSize = p)) ∧
    ((p.PaddleID = 2 ∨ p.PaddleID = 4) →
      ((0 ≤ fl (p.X + fl (dx * p.Speed)) ∧
          fl (fl (p.X + fl (dx * p.Speed)) + p.Width) ≤ fl (fieldSize : α)) →
        p.Move fl dx dy fieldSize = { p with X := fl (p.X + fl (dx * p.Speed)) } ∧
        (fl (p.X + fl (dx * p.Speed)) ≤ fl (fl (fieldSize : α) - p.Width) →
          p.Move fl dx dy fieldSize = p.MoveClampedSpec fl dx dy fieldSize)) ∧
      (¬ (0 ≤ fl (p.X + fl (dx * p.Speed)) ∧
          fl (fl (p.X + fl (dx * p.Speed)) + p.Width) ≤ fl (fieldSize : α)) →
        p.Move fl dx dy fieldSize = p)) := by
  constructor
  · intro hid
    have hmove : p.Move fl dx dy fieldSize =
        if fl (p.Y + fl (dy * p.Speed)) ≥ 0 ∧
            fl (fl (p.Y + fl (dy * p.Speed)) + p.Height) ≤ fl (fieldSize : α) then
          { p with Y := fl (p.Y + fl (dy * p.Speed)) } else p := by
      unfold Paddle.Move
      rcases hid with h | h <;> simp [h]
    constructor
    · intro hin
      have hin' : fl (p.Y + fl (dy * p.Speed)) ≥ 0 ∧
          fl (fl (p.Y + fl (dy * p.Speed)) + p.Height) ≤ fl (fieldSize : α) := hin
      rw [hmove, if_pos hin']
      refine ⟨rfl, ?_⟩
      intro hhi
      unfold Paddle.MoveClampedSpec
      rw [if_pos hid, clampTo_of_mem _ _ _ hin.1 hhi]
    · intro hout
      have hout' : ¬ (fl (p.Y + fl (dy * p.Speed)) ≥ 0 ∧
          fl (fl (p.Y + fl (dy * p.Speed)) + p.Height) ≤ fl (fieldSize : α)) := hout
      rw [hmove, if_neg hout']
  · intro hid
    have hnot : ¬ (p.PaddleID = 1 ∨ p.PaddleID = 3) := by omega
    have hmove : p.Move fl dx dy fieldSize =
        if fl (p.X + fl (dx * p.Speed)) ≥ 0 ∧
            fl (fl (p.X + fl (dx * p.Speed)) + p.Width) ≤ fl (fieldSize : α) then
          { p with X := fl (p.X + fl (dx * p.Speed)) } else p := by
      unfold Paddle.Move
      rcases hid with h | h <;> simp [h]
    constructor
    · intro hin
      have hin' : fl (p.X + fl (dx * p.Speed)) ≥ 0 ∧
          fl (fl (p.X + fl (dx * p.Speed)) + p.Width) ≤ fl (fieldSize : α) := hin
      rw [hmove, if_pos hin']
      refine ⟨rfl, ?_⟩
      intro hhi
      unfold Paddle.MoveClampedSpec
      rw [if_neg hnot, if_pos hid, clampTo_of_mem _ _ _ hin.1 hhi]
    · intro hout
      have hout' : ¬ (fl (p.X + fl (dx * p.Speed)) ≥ 0 ∧
          fl (fl (p.X + fl (dx * p.Speed)) + p.Width) ≤ fl (fieldSize : α)) := hout
      rw [hmove, if_neg hout']

/-! ## The client registry -/

/-- While the server runs with two or more registered clients and its mutex is
free, an accepted connection is closed: no handler is started, so no player
id is assigned and no join message is sent. -/
theorem Session_step_full (s : Session α) (hfree : s.deadlocked = false)
    (hrun : s.server.running = true) (hfull : 2 ≤ s.server.clients.length) :
    s.step SessionEvent.connectionAccepted = { s with closed := s.closed + 1 } := by
  simp [Session.step, Server.acceptsConnection, hfree, hrun, hfull]

/-- Removing a client does not grow the registry. -/
theorem removeClient_length (s : Server α) (playerID : Int) :
    (s.removeClient playerID).1.clients.length ≤ s.clients.length := by
  unfold Server.removeClient
  simp only
  split_ifs
  · simp only [Server.stopGame]
    exact List.length_erase_le _ _
  · exact List.length_erase_le _ _

/-- A registration grows the registry by at most one. -/
theorem registerClient_length (s : Server α) :
    s.registerClient.1.clients.length ≤ s.clients.length + 1 := by
  simp only [Server.registerClient]
  by_cases h : wrapInt64 (s.clientCount + 1) ∈ s.clients
  · rw [List.insert_of_mem h]
    omega
  · rw [List.insert_of_not_mem h]
    simp

/-- When no connection is accepted while a started handler has yet to register,
the registered clients and the started handlers together stay at most 2. -/
theorem Session_serial_capacity (s : Session α) (e : SessionEvent)
    (hinv : s.server.clients.length + s.handlers ≤ 2)
    (hserial : e = SessionEvent.connectionAccepted → s.handlers = 0) :
    (s.step e).server.clients.length + (s.step e).handlers ≤ 2 := by
  unfold Session.step
  by_cases hd : s.deadlocked = true
  · simp only [hd, if_true]
    exact hinv
  · simp only [hd, Bool.false_eq_true, if_false]
    cases e with
    | connectionAccepted =>
      have h0 := hserial rfl
      simp only [Server.acceptsConnection]
      by_cases h1 : s.server.running = true
      · by_cases h2 : s.server.clients.length ≥ 2
        · simp only [h1, h2, if_true, Bool.false_eq_true, if_false]
          exact hinv
        · simp only [h1, h2, if_true, if_false]
          omega
      · simp only [h1, Bool.false_eq_true, if_false]
        exact hinv
    | clientRegistered =>
      simp only
      split_ifs with h
      · exact hinv
      · have := registerClient_length s.server
        simp only
        omega
    | clientDisconnected playerID =>
      simp only
      split_ifs with h
      · have := removeClient_length s.server playerID
        simp only
        omega
      · exact hinv

/-- A disconnect during a started game blocks the server: the client is
removed and the game stopped, then the handler waits for ever for the mutex
it holds, and a connection accepted afterwards is neither closed nor handed
to a handler. -/
theorem Session_disconnect_in_game_blocks :
    let s0 : Session ℚ :=
      { server := { (NewServer 0 : Server ℚ).Start with
                      clients := [2, 1], clientCount := 2, gameStarted := true },
        handlers := 0, closed := 0, joins := [2, 1], deadlocked := false }
    let s := s0.step (SessionEvent.clientDisconnected 1)
    s.server.clients = [2] ∧ s.server.gameStarted = false ∧ s.deadlocked = true ∧
    s.step SessionEvent.connectionAccepted = s := by
  intro s0 s
  have hd : s.deadlocked = true := by
    simp [s, s0, Session.step, Server.removeClient, Server.stopGame, NewServer, Server.Start]
  refine ⟨?_, ?_, hd, ?_⟩
  · simp [s, s0, Session.step, Server.removeClient, Server.stopGame, NewServer, Server.Start]
  · simp [s, s0, Session.step, Server.removeClient, Server.stopGame, NewServer, Server.Start]
  · simp only [Session.step, hd, if_true]

/-- C15, evaluated where the code departs from it.  On a started server without
clients three connections are accepted before the first `handleClient`
goroutine registers: each passes the capacity test of `acceptClients`
(the registry is still empty), then the three goroutines register.  The
registry holds the three clients 1, 2 and 3, each was sent a join message,
and no connection was closed. -/
theorem registry_exceeds_capacity_after_racing_accepts :
    let s0 : Session ℚ :=
      { server := (NewServer 0 : Server ℚ).Start, handlers := 0, closed := 0, joins := [],
        deadlocked := false }
    let s := s0.run [SessionEvent.connectionAccepted, SessionEvent.connectionAccepted,
      SessionEvent.connectionAccepted, SessionEvent.clientRegistered,
      SessionEvent.clientRegistered, SessionEvent.clientRegistered]
    s.server.clients = [3, 2, 1] ∧ s.server.clients.length = 3 ∧
    s.closed = 0 ∧ s.joins = [3, 2, 1] := by
  intro s0 s
  simp [s, s0, Session.run, Session.step, NewServer, Server.Start, Server.acceptsConnection,
    Server.registerClient, wrapInt64]

/-! ## Initialisation -/

/-- The ball creation loop makes `n` balls, all at (300, 300). -/
theorem newBalls_spec (m : GoMath α) (speed : α) (n : Nat) :
    ∀ (r : RandSource α), (newBalls m speed n r).1.length = n ∧
      ∀ b ∈ (newBalls m speed n r).1, b.X = 300 ∧ b.Y = 300 := by
  induction n with
  | zero => intro r; simp [newBalls]
  | succ k ih =>
    intro r
    simp only [newBalls, List.length_cons, List.mem_cons]
    refine ⟨by rw [(ih _).1], ?_⟩
    intro b hb
    rcases hb with h | h
    · subst h
      simp [NewBall]
    · exact (ih _).2 b h

/-- C16.  In every world state with the settings given by `NewGameState` (field
size 600, a ball count that is not negative; no operation writes the
settings), whatever the rest of the state, `InitializeGame` returns, and the
state it leaves has exactly 4 paddles, two of player 1 and two of player 2,
each rectangle inside the field; `BallCount` balls, each at
(FieldSize/2, FieldSize/2); both scores 0, `GameOver` false and `Winner` 0. -/
theorem InitializeGame_postcondition (m : GoMath α) (gs : GameState α)
    (now : Int) (r : RandSource α)
    (hfield : gs.Settings.FieldSize = 600) (hcount : 0 ≤ gs.Settings.BallCount) :
    ∃ (gs' : GameState α) (r' : RandSource α),
      gs.InitializeGame m now r = some (gs', r') ∧
      gs'.Paddles.length = 4 ∧
      gs'.Paddles.countP (fun p => p.PlayerID == 1) = 2 ∧
      gs'.Paddles.countP (fun p => p.PlayerID == 2) = 2 ∧
      (∀ p ∈ gs'.Paddles, p.insideField gs'.Settings.FieldSize) ∧
      (gs'.Balls.length : Int) = gs'.Settings.BallCount ∧
      (∀ b ∈ gs'.Balls, b.X = (gs'.Settings.FieldSize : α) / 2 ∧
        b.Y = (gs'.Settings.FieldSize : α) / 2) ∧
      gs'.Scores.Player1 = 0 ∧ gs'.Scores.Player2 = 0 ∧
      gs'.GameOver = false ∧ gs'.Winner = 0 := by
  have hnot : ¬ gs.Settings.BallCount < 0 := not_lt.mpr hcount
  have hb := newBalls_spec m gs.Settings.BallSpeed gs.Settings.BallCount.toNat r
  refine ⟨_, _, by unfold GameState.InitializeGame; rw [if_neg hnot], ?_⟩
  refine ⟨rfl, ?_, ?_, ?_, ?_, ?_, rfl, rfl, rfl, rfl⟩
  · simp [NewPaddle, List.countP_cons]
  · simp [NewPaddle, List.countP_cons]
  · intro p hp
    simp only [List.mem_cons, List.mem_singleton, List.not_mem_nil, or_false] at hp
    simp only [hfield]
    rcases hp with h | h | h | h <;> subst h <;> norm_num [Paddle.insideField, NewPaddle]
  · simp only [hb.1]
    exact Int.toNat_of_nonneg hcount
  · intro b hmem
    have := hb.2 b hmem
    simp only [hfield]
    rw [this.1, this.2]
    norm_num

/-- C16 on the state made by `NewGameState`: 4 paddles and 2 balls, as the
repository's test program prints. -/
theorem InitializeGame_postcondition_witness :
    ∃ (gs' : GameState ℝ) (r' : RandSource ℝ),
      (NewGameState 1000 : GameState ℝ).InitializeGame
        (GoMath.mk Real.sqrt Real.cos Real.sin Real.pi) 2000 ⟨fun _ => 1 / 2, 0⟩ =
          some (gs', r') ∧
      gs'.Paddles.length = 4 ∧ gs'.Balls.length = 2 := by
  obtain ⟨gs', r', h, h4, _, _, _, hb, _⟩ := InitializeGame_postcondition
    (GoMath.mk Real.sqrt Real.cos Real.sin Real.pi)
    (NewGameState 1000 : GameState ℝ) 2000 ⟨fun _ => 1 / 2, 0⟩ rfl (by decide)
  refine ⟨gs', r', h, h4, ?_⟩
  have hs : gs'.Settings.BallCount = 2 := by
    simp [GameState.InitializeGame, NewGameState] at h
    rw [← h.1]
  rw [hs] at hb
  exact_mod_cast hb

/-! ## The client send task and the client mirror -/

/-- C17 as stated fails.  A connected client submits (10, 20) and then (30, 40);
the next tick of the send task transmits (10, 20), the oldest pending input,
not the most recently submitted one. -/
theorem inputHandlerTick_not_most_recent_counterexample :
    let c0 : GameClient ℚ :=
      { playerID := 1, connected := true, hasConn := true, inputChan := [] }
    let c := (c0.SendInput 10 20).SendInput 30 40
    c.inputChan = [CreateInputMessage 1 10 20, CreateInputMessage 1 30 40] ∧
    c.inputHandlerTick.2 = some (CreateInputMessage 1 10 20) ∧
    c.inputHandlerTick.2 ≠ some (CreateInputMessage 1 30 40) := by
  intro c0 c
  have hq : c.inputChan = [CreateInputMessage 1 10 20, CreateInputMessage 1 30 40] := by
    simp [c, c0, GameClient.SendInput, inputChanCapacity]
  have ht : c.inputHandlerTick.2 = some (CreateInputMessage 1 10 20) := by
    simp [GameClient.inputHandlerTick, hq, c, c0, GameClient.SendInput, inputChanCapacity]
  refine ⟨hq, ht, ?_⟩
  rw [ht]
  simp [CreateInputMessage]

/-- C17, amended.  For a connected client: on a tick with no pending input
nothing is transmitted; on a tick with pending inputs the oldest one, the
head of the queue, is transmitted and removed; `SendInput` puts a new input
behind all pending ones, and drops it when the queue is full. -/
theorem inputHandlerTick_sends_oldest_pending (c : GameClient α)
    (hc : c.connected = true) (hh : c.hasConn = true) :
    (c.inputChan = [] → c.inputHandlerTick = (c, none)) ∧
    (∀ (msg : InputMessage α) (rest : List (InputMessage α)), c.inputChan = msg :: rest →
      c.inputHandlerTick = ({ c with inputChan := rest }, some msg)) ∧
    (∀ (paddle1Y paddle2X : α), c.inputChan.length < inputChanCapacity →
      (c.SendInput paddle1Y paddle2X).inputChan =
        c.inputChan ++ [CreateInputMessage c.playerID paddle1Y paddle2X]) ∧
    (∀ (paddle1Y paddle2X : α), ¬ c.inputChan.length < inputChanCapacity →
      c.SendInput paddle1Y paddle2X = c) := by
  refine ⟨?_, ?_, ?_, ?_⟩
  · intro h
    simp [GameClient.inputHandlerTick, h]
  · intro msg rest h
    simp [GameClient.inputHandlerTick, h, hc, hh]
  · intro y x h
    simp [GameClient.SendInput, hc, h]
  · intro y x h
    simp [GameClient.SendInput, hc, h]

/-- C17, amended, on a connected client with the two pending inputs (10, 20)
and (30, 40). -/
theorem inputHandlerTick_sends_oldest_pending_witness :
    let c : GameClient ℚ :=
      { playerID := 1, connected := true, hasConn := true,
        inputChan := [CreateInputMessage 1 10 20, CreateInputMessage 1 30 40] }
    c.inputHandlerTick =
      ({ c with inputChan := [CreateInputMessage 1 30 40] },
        some (CreateInputMessage 1 10 20)) := by
  intro c
  exact (inputHandlerTick_sends_oldest_pending c rfl rfl).2.1 _ _ rfl

/-- C19, evaluated where the code departs from it.  For a snapshot with the
scores 3 and 5 the mirrored state built from `CreateStateMessage` has the
scores 0 and 0: the state message, documented as the complete game state, has
no field for them. -/
theorem mirror_loses_scores :
    let s : GameState ℚ :=
      { (NewGameState 0 : GameState ℚ) with Scores := { Player1 := 3, Player2 := 5 } }
    (GameClient.processStateMessage (CreateStateMessage s)).Scores =
      { Player1 := 0, Player2 := 0 } ∧
    s.Scores = { Player1 := 3, Player2 := 5 } ∧
    (GameClient.processStateMessage (CreateStateMessage s)).Scores ≠ s.Scores := by
  intro s
  refine ⟨rfl, rfl, ?_⟩
  intro h
  have h1 := congrArg Scores.Player1 h
  simp [s, GameClient.processStateMessage] at h1

/-- What the mirror does reproduce of the snapshot behind a state message: the
balls, the paddles, the `GameOver` flag and the winner. -/
theorem mirror_reproduces_balls_paddles_flags (s : GameState α) :
    let mirror := GameClient.processStateMessage (CreateStateMessage s)
    mirror.Balls = s.Balls ∧ mirror.Paddles = s.Paddles ∧
    mirror.GameOver = s.GameOver ∧ mirror.Winner = s.Winner := by
  intro mirror
  exact ⟨rfl, rfl, rfl, rfl⟩

/-! ## The stopped controller and Reset -/

/-- An executed tick stores its time in `lastTick` and keeps `tickRate`. -/
theorem Update_restamps (m : GoMath α) (g : Game α) (now sinceNow stamp : Int)
    (r : RandSource α) (hrun : g.running = true) (hdue : g.tickRate ≤ now - g.lastTick) :
    (g.Update m now sinceNow stamp r).1.lastTick = now ∧
    (g.Update m now sinceNow stamp r).1.tickRate = g.tickRate := by
  have hd : ¬ now - g.lastTick < g.tickRate := not_lt.mpr hdue
  have hnr : ¬ ((!g.running) = true) := by simp [hrun]
  unfold Game.Update
  rw [if_neg hnr, if_neg hd]
  simp only
  split_ifs <;> exact ⟨rfl, rfl⟩

/-- C18.  `Update` returns the controller and the world state unchanged when
the controller is not running, and when less than a tick interval has elapsed
since `lastTick`.  An executed tick stores its time in `lastTick` and keeps
the tick interval, so every `Update` less than a tick interval after it
returns the controller unchanged.  After an executed tick on which
`CheckGameEnd` returns true the controller is not running, and every later
`Update` returns it unchanged, so balls, paddles, scores, `GameOver`,
`Winner` and `EndTime` stay as that tick left them. -/
theorem Update_stopped_controller (m : GoMath α) (g : Game α)
    (now sinceNow stamp : Int) (r : RandSource α) :
    (g.running = false → g.Update m now sinceNow stamp r = (g, r)) ∧
    (now - g.lastTick < g.tickRate → g.Update m now sinceNow stamp r = (g, r)) ∧
    (g.running = true → g.tickRate ≤ now - g.lastTick →
      (g.Update m now sinceNow stamp r).1.lastTick = now ∧
      (g.Update m now sinceNow stamp r).1.tickRate = g.tickRate ∧
      ∀ (now2 sinceNow2 stamp2 : Int) (r2 : RandSource α), now2 - now < g.tickRate →
        (g.Update m now sinceNow stamp r).1.Update m now2 sinceNow2 stamp2 r2 =
          ((g.Update m now sinceNow stamp r).1, r2)) ∧
    (g.running = true → g.tickRate ≤ now - g.lastTick →
      (((({ g with lastTick := now } : Game α).updateBalls m r).1.checkCollisions m
        (({ g with lastTick := now } : Game α).updateBalls m r).2).1.state.CheckGameEnd
          sinceNow stamp).2 = true →
      (g.Update m now sinceNow stamp r).1.running = false ∧
      ∀ (now2 sinceNow2 stamp2 : Int) (r2 : RandSource α),
        (g.Update m now sinceNow stamp r).1.Update m now2 sinceNow2 stamp2 r2 =
          ((g.Update m now sinceNow stamp r).1, r2)) := by
  refine ⟨?_, ?_, ?_, ?_⟩
  · intro h
    simp [Game.Update, h]
  · intro h
    simp [Game.Update, h]
  · intro hrun hdue
    obtain ⟨hl, ht⟩ := Update_restamps m g now sinceNow stamp r hrun hdue
    refine ⟨hl, ht, ?_⟩
    intro now2 sinceNow2 stamp2 r2 hsoon
    generalize (g.Update m now sinceNow stamp r).1 = g' at hl ht
    have : now2 - g'.lastTick < g'.tickRate := by rw [hl, ht]; exact hsoon
    simp [Game.Update, this]
  · intro hrun hdue hend
    have hd : ¬ now - g.lastTick < g.tickRate := not_lt.mpr hdue
    have hstop : (g.Update m now sinceNow stamp r).1.running = false := by
      have hnr : ¬ ((!g.running) = true) := by simp [hrun]
      unfold Game.Update
      rw [if_neg hnr, if_neg hd]
      simp only
      rw [if_pos hend]
    refine ⟨hstop, ?_⟩
    intro now2 sinceNow2 stamp2 r2
    generalize (g.Update m now sinceNow stamp r).1 = g' at hstop
    simp [Game.Update, hstop]

/-- C20.  Over the reals, for every ball, field size and draw, `Reset` puts the
ball at (fieldSize/2, fieldSize/2), gives it a velocity with
`DX ^ 2 + DY ^ 2 = Speed ^ 2`, and leaves `Radius` and `Speed` as they were. -/
theorem Reset_postcondition (b : Ball ℝ) (fieldSize : Int) (r : RandSource ℝ) :
    let b' := (b.Reset (GoMath.mk Real.sqrt Real.cos Real.sin Real.pi) fieldSize r).1
    b'.X = (fieldSize : ℝ) / 2 ∧ b'.Y = (fieldSize : ℝ) / 2 ∧
    b'.DX ^ 2 + b'.DY ^ 2 = b.Speed ^ 2 ∧
    b'.Radius = b.Radius ∧ b'.Speed = b.Speed := by
  intro b'
  refine ⟨rfl, rfl, ?_, rfl, rfl⟩
  simp only [b', Ball.Reset]
  have h := Real.cos_sq_add_sin_sq (r.Float64.1 * 2 * Real.pi)
  calc (Real.cos (r.Float64.1 * 2 * Real.pi) * b.Speed) ^ 2 +
        (Real.sin (r.Float64.1 * 2 * Real.pi) * b.Speed) ^ 2
      = (Real.cos (r.Float64.1 * 2 * Real.pi) ^ 2 +
          Real.sin (r.Float64.1 * 2 * Real.pi) ^ 2) * b.Speed ^ 2 := by ring
    _ = b.Speed ^ 2 := by rw [h, one_mul]

/-! ## Direction and divisor of the paddle bounce -/

/-- On overlap `CheckPaddleCollision` returns true and leaves the ball with the
perturbed velocity divided by the divisor and scaled by `Speed`. -/
theorem CheckPaddleCollision_normalised (m : GoMath α) (b : Ball α) (paddle : Paddle α)
    (r : RandSource α) (h : b.overlaps paddle = true) :
    (b.CheckPaddleCollision m paddle r).1 =
      { b with
        DX := (b.perturbedVelocity paddle r).1 / b.normalisationDivisor m paddle r * b.Speed,
        DY := (b.perturbedVelocity paddle r).2 / b.normalisationDivisor m paddle r * b.Speed } ∧
    (b.CheckPaddleCollision m paddle r).2.1 = true := by
  simp only [Ball.CheckPaddleCollision, h, if_true, Ball.perturbedVelocity,
    Ball.normalisationDivisor, and_self]

/-- CheckPaddleCollision returns true only on overlap. -/
theorem CheckPaddleCollision_hit_overlaps (m : GoMath α) (b : Ball α) (paddle : Paddle α)
    (r : RandSource α) (h : (b.CheckPaddleCollision m paddle r).2.1 = true) :
    b.overlaps paddle = true := by
  by_cases ho : b.overlaps paddle = true
  · exact ho
  · simp [Ball.CheckPaddleCollision, ho] at h

/-- A draw in [0, 1) gives a perturbation in [-0.25, 0.25). -/
theorem perturbation_range (u : α) (h : 0 ≤ u ∧ u < 1) :
    -(1 / 4) ≤ (u - 0.5) * 0.5 ∧ (u - 0.5) * 0.5 < 1 / 4 := by
  constructor
  · norm_num
    linarith [h.1]
  · norm_num
    linarith [h.2]

/-- A vector of length `s`, at least 3, moved by a vector whose components lie in
[-0.25, 0.25) has length at least `s - 0.25 * sqrt 2`. -/
theorem perturbed_length_lower_bound (x y p q s : ℝ)
    (hmag : x ^ 2 + y ^ 2 = s ^ 2) (hs : 3 ≤ s)
    (hp : -(1 / 4) ≤ p ∧ p < 1 / 4) (hq : -(1 / 4) ≤ q ∧ q < 1 / 4) :
    s - 0.25 * Real.sqrt 2 ≤ Real.sqrt ((x + p) * (x + p) + (y + q) * (y + q)) := by
  have hw0 : 0 ≤ Real.sqrt 2 := Real.sqrt_nonneg 2
  have hw2 : Real.sqrt 2 ^ 2 = 2 := Real.sq_sqrt (by norm_num)
  have hw : Real.sqrt 2 ≤ 2 := by nlinarith
  have hρ0 : 0 ≤ Real.sqrt (p ^ 2 + q ^ 2) := Real.sqrt_nonneg _
  have hρ2 : Real.sqrt (p ^ 2 + q ^ 2) ^ 2 = p ^ 2 + q ^ 2 :=
    Real.sq_sqrt (by positivity)
  have hp2 : p ^ 2 ≤ 1 / 16 := by nlinarith [hp.1, hp.2]
  have hq2 : q ^ 2 ≤ 1 / 16 := by nlinarith [hq.1, hq.2]
  have hρ : Real.sqrt (p ^ 2 + q ^ 2) ≤ 0.25 * Real.sqrt 2 := by
    by_contra hcon
    have hlt : 0.25 * Real.sqrt 2 < Real.sqrt (p ^ 2 + q ^ 2) := not_le.mp hcon
    have h1 : (0.25 * Real.sqrt 2) ^ 2 < Real.sqrt (p ^ 2 + q ^ 2) ^ 2 :=
      pow_lt_pow_left₀ hlt (by positivity) (by norm_num)
    have h2 : (0.25 * Real.sqrt 2) ^ 2 = 1 / 8 := by
      rw [mul_pow, hw2]; norm_num
    rw [h2, hρ2] at h1
    linarith
  have hcs : (x * p + y * q) ^ 2 ≤ (s * Real.sqrt (p ^ 2 + q ^ 2)) ^ 2 := by
    rw [mul_pow, hρ2, ← hmag]
    nlinarith [sq_nonneg (x * q - y * p)]
  have hsρ : 0 ≤ s * Real.sqrt (p ^ 2 + q ^ 2) := mul_nonneg (by linarith) hρ0
  have hdot : -(s * Real.sqrt (p ^ 2 + q ^ 2)) ≤ x * p + y * q :=
    neg_le_of_abs_le (abs_le_of_sq_le_sq hcs hsρ)
  have hlow : (s - Real.sqrt (p ^ 2 + q ^ 2)) ^ 2 ≤ (x + p) * (x + p) + (y + q) * (y + q) := by
    nlinarith [hdot, hρ2, hmag]
  have hpos : 0 ≤ s - 0.25 * Real.sqrt 2 := by
    have : 0.25 * Real.sqrt 2 ≤ 0.25 * 2 := by nlinarith
    norm_num at this ⊢
    linarith
  apply Real.le_sqrt_of_sq_le
  calc (s - 0.25 * Real.sqrt 2) ^ 2 ≤ (s - Real.sqrt (p ^ 2 + q ^ 2)) ^ 2 :=
        pow_le_pow_left₀ hpos (by linarith) 2
    _ ≤ (x + p) * (x + p) + (y + q) * (y + q) := hlow

/-- C21 as stated fails.  A ball of speed 3 falling straight down (velocity
(0, 3)) overlaps the left paddle with its centre left of the paddle's
horizontal midpoint (9 < 10); the draw 9/10 gives the perturbation 0.2, which
is added after the side test, and the resulting `DX` is positive. -/
theorem CheckPaddleCollision_direction_counterexample :
    let b : Ball ℝ := ⟨9, 360, 0, 3, 8, 3⟩
    let paddle : Paddle ℝ := NewPaddle 1 1 0 300 20 100
    let r : RandSource ℝ := ⟨fun n => if n = 0 then 9 / 10 else 1 / 2, 0⟩
    let res := b.CheckPaddleCollision
      (GoMath.mk Real.sqrt Real.cos Real.sin Real.pi) paddle r
    res.2.1 = true ∧
    (0 ≤ r.next r.pos ∧ r.next r.pos < 1) ∧
    (0 ≤ r.next (r.pos + 1) ∧ r.next (r.pos + 1) < 1) ∧
    b.X < paddle.X + paddle.Width / 2 ∧
    0 < res.1.DX := by
  intro b paddle r res
  have ho : b.overlaps paddle = true := by
    norm_num [b, paddle, Ball.overlaps, NewPaddle]
  refine ⟨by simp only [res, Ball.CheckPaddleCollision, ho, if_true],
    by norm_num [r], by norm_num [r], by norm_num [b, paddle, NewPaddle], ?_⟩
  simp only [res, Ball.CheckPaddleCollision, ho, if_true]
  have hx : b.X < paddle.X + paddle.Width / 2 := by norm_num [b, paddle, NewPaddle]
  simp only [hx, if_true, RandSource.Float64, r]
  refine mul_pos (div_pos ?_ (Real.sqrt_pos.mpr
    (add_pos_of_pos_of_nonneg (mul_pos ?_ ?_) (mul_self_nonneg _)))) (by norm_num [b])
  all_goals norm_num [b]

/-- The direction of the bounce is also reversed by a negative `Speed`: a ball
left of the midpoint with velocity (3, 0) and `Speed` -3 leaves with `DX` 3. -/
theorem CheckPaddleCollision_direction_negative_speed :
    let b : Ball ℝ := ⟨9, 360, 3, 0, 8, -3⟩
    let paddle : Paddle ℝ := NewPaddle 1 1 0 300 20 100
    let r : RandSource ℝ := ⟨fun _ => 1 / 2, 0⟩
    let res := b.CheckPaddleCollision
      (GoMath.mk Real.sqrt Real.cos Real.sin Real.pi) paddle r
    res.2.1 = true ∧ b.X < paddle.X + paddle.Width / 2 ∧ res.1.DX = 3 := by
  intro b paddle r res
  have ho : b.overlaps paddle = true := by
    norm_num [b, paddle, Ball.overlaps, NewPaddle]
  have hx : b.X < paddle.X + paddle.Width / 2 := by norm_num [b, paddle, NewPaddle]
  have hy : ¬ b.Y < paddle.Y + paddle.Height / 2 := by norm_num [b, paddle, NewPaddle]
  have ha : |(3 : ℝ)| = 3 := abs_of_pos (by norm_num)
  have hp : ((1 / 2 : ℝ) - 0.5) * 0.5 = 0 := by norm_num
  have hsq : Real.sqrt (-3 * -3 + 0 * 0) = 3 := by
    rw [show (-3 * -3 + 0 * 0 : ℝ) = 3 * 3 by ring]
    exact Real.sqrt_mul_self (by norm_num)
  refine ⟨by simp only [res, Ball.CheckPaddleCollision, ho, if_true], hx, ?_⟩
  simp only [res, Ball.CheckPaddleCollision, ho, if_true, hx, hy, if_false, RandSource.Float64, r]
  simp only [b, ha, abs_zero, hp, add_zero, hsq]
  norm_num

/-- C21, amended.  Over the reals, for a ball of non-negative `Speed`, a paddle
it overlaps and two draws in [0, 1) (perturbations in [-0.25, 0.25)): when
`DX` had magnitude above 0.25 before the collision, the resulting `DX` is
non-positive if the ball centre is left of the paddle's horizontal midpoint
and non-negative otherwise; when `DY` had magnitude above 0.25, the resulting
`DY` is non-positive if the ball centre is above the paddle's vertical
midpoint and non-negative otherwise. -/
theorem CheckPaddleCollision_direction (b : Ball ℝ) (paddle : Paddle ℝ) (r : RandSource ℝ)
    (hspeed : 0 ≤ b.Speed)
    (hu1 : 0 ≤ r.next r.pos ∧ r.next r.pos < 1)
    (hu2 : 0 ≤ r.next (r.pos + 1) ∧ r.next (r.pos + 1) < 1)
    (hhit : (b.CheckPaddleCollision
      (GoMath.mk Real.sqrt Real.cos Real.sin Real.pi) paddle r).2.1 = true) :
    let b' := (b.CheckPaddleCollision
      (GoMath.mk Real.sqrt Real.cos Real.sin Real.pi) paddle r).1
    (1 / 4 < |b.DX| →
      (b.X < paddle.X + paddle.Width / 2 → b'.DX ≤ 0) ∧
      (¬ b.X < paddle.X + paddle.Width / 2 → 0 ≤ b'.DX)) ∧
    (1 / 4 < |b.DY| →
      (b.Y < paddle.Y + paddle.Height / 2 → b'.DY ≤ 0) ∧
      (¬ b.Y < paddle.Y + paddle.Height / 2 → 0 ≤ b'.DY)) := by
  intro b'
  have ho := CheckPaddleCollision_hit_overlaps _ b paddle r hhit
  have hn := (CheckPaddleCollision_normalised
    (GoMath.mk Real.sqrt Real.cos Real.sin Real.pi) b paddle r ho).1
  have hd : 0 ≤ b.normalisationDivisor
      (GoMath.mk Real.sqrt Real.cos Real.sin Real.pi) paddle r := Real.sqrt_nonneg _
  have p1 := perturbation_range _ hu1
  have p2 := perturbation_range _ hu2
  simp only [b', hn]
  refine ⟨fun hx => ⟨fun hl => ?_, fun hl => ?_⟩,
    fun hy => ⟨fun hl => ?_, fun hl => ?_⟩⟩
  · have : (b.perturbedVelocity paddle r).1 ≤ 0 := by
      simp only [Ball.perturbedVelocity, hl, if_true, RandSource.Float64]
      linarith [p1.2]
    exact mul_nonpos_of_nonpos_of_nonneg (div_nonpos_of_nonpos_of_nonneg this hd) hspeed
  · have : 0 ≤ (b.perturbedVelocity paddle r).1 := by
      simp only [Ball.perturbedVelocity, hl, if_false, RandSource.Float64]
      linarith [p1.1]
    exact mul_nonneg (div_nonneg this hd) hspeed
  · have : (b.perturbedVelocity paddle r).2 ≤ 0 := by
      simp only [Ball.perturbedVelocity, hl, if_true, RandSource.Float64]
      linarith [p2.2]
    exact mul_nonpos_of_nonpos_of_nonneg (div_nonpos_of_nonpos_of_nonneg this hd) hspeed
  · have : 0 ≤ (b.perturbedVelocity paddle r).2 := by
      simp only [Ball.perturbedVelocity, hl, if_false, RandSource.Float64]
      linarith [p2.1]
    exact mul_nonneg (div_nonneg this hd) hspeed

/-- C21, amended, on a ball of the default speed moving right into the left
paddle, left of its midpoint: it leaves with a non-positive `DX`. -/
theorem CheckPaddleCollision_direction_witness :
    ((⟨9, 360, 3, 0, 8, 3⟩ : Ball ℝ).CheckPaddleCollision
      (GoMath.mk Real.sqrt Real.cos Real.sin Real.pi)
      (NewPaddle 1 1 0 300 20 100) ⟨fun _ => 1 / 2, 0⟩).1.DX ≤ 0 :=
  ((CheckPaddleCollision_direction ⟨9, 360, 3, 0, 8, 3⟩ (NewPaddle 1 1 0 300 20 100)
    ⟨fun _ => 1 / 2, 0⟩ (by norm_num) (by norm_num) (by norm_num)
    (by norm_num [Ball.CheckPaddleCollision, Ball.overlaps, NewPaddle])).1
    (by rw [abs_of_pos] <;> norm_num)).1 (by norm_num [NewPaddle])

/-- C22.  Over the reals, for a ball whose velocity has magnitude `Speed` with
`Speed` at least 3, a paddle it overlaps and two draws in [0, 1)
(perturbations in [-0.25, 0.25)): the velocity `CheckPaddleCollision` leaves
is the perturbed velocity divided by the divisor `speed` and scaled by
`Speed`, and that divisor is strictly positive and at least
`Speed - 0.25 * sqrt 2`. -/
theorem CheckPaddleCollision_divisor_positive (b : Ball ℝ) (paddle : Paddle ℝ)
    (r : RandSource ℝ)
    (hspeed : 3 ≤ b.Speed)
    (hmag : b.DX ^ 2 + b.DY ^ 2 = b.Speed ^ 2)
    (hu1 : 0 ≤ r.next r.pos ∧ r.next r.pos < 1)
    (hu2 : 0 ≤ r.next (r.pos + 1) ∧ r.next (r.pos + 1) < 1)
    (ho : b.overlaps paddle = true) :
    let d := b.normalisationDivisor (GoMath.mk Real.sqrt Real.cos Real.sin Real.pi) paddle r
    let b' := (b.CheckPaddleCollision
      (GoMath.mk Real.sqrt Real.cos Real.sin Real.pi) paddle r).1
    b'.DX = (b.perturbedVelocity paddle r).1 / d * b.Speed ∧
    b'.DY = (b.perturbedVelocity paddle r).2 / d * b.Speed ∧
    0 < d ∧ b.Speed - 0.25 * Real.sqrt 2 ≤ d := by
  intro d b'
  have hn := (CheckPaddleCollision_normalised
    (GoMath.mk Real.sqrt Real.cos Real.sin Real.pi) b paddle r ho).1
  have hbound : b.Speed - 0.25 * Real.sqrt 2 ≤ d := by
    simp only [d, Ball.normalisationDivisor, Ball.perturbedVelocity, RandSource.Float64]
    apply perturbed_length_lower_bound _ _ _ _ b.Speed _ hspeed
      (perturbation_range _ hu1) (perturbation_range _ hu2)
    rw [bounce_sq, bounce_sq]
    exact hmag
  have hw2 : Real.sqrt 2 ^ 2 = 2 := Real.sq_sqrt (by norm_num)
  have hw : Real.sqrt 2 ≤ 2 := by nlinarith [Real.sqrt_nonneg 2]
  refine ⟨by simp only [b', hn], by simp only [b', hn], ?_, hbound⟩
  have : 0.25 * Real.sqrt 2 ≤ 0.25 * 2 := by nlinarith
  norm_num at this
  linarith

/-- C22 on a ball of the default speed moving right into the left paddle. -/
theorem CheckPaddleCollision_divisor_positive_witness :
    0 < (⟨9, 360, 3, 0, 8, 3⟩ : Ball ℝ).normalisationDivisor
      (GoMath.mk Real.sqrt Real.cos Real.sin Real.pi)
      (NewPaddle 1 1 0 300 20 100) ⟨fun _ => 1 / 2, 0⟩ :=
  (CheckPaddleCollision_divisor_positive ⟨9, 360, 3, 0, 8, 3⟩ (NewPaddle 1 1 0 300 20 100)
    ⟨fun _ => 1 / 2, 0⟩ (by norm_num) (by norm_num) (by norm_num) (by norm_num)
    (by norm_num [Ball.overlaps, NewPaddle])).2.2.1

end Pong
